import Mathlib

/-!
Verification of the request-format normalization and replay-reconstruction
engine of the replay_llm_call repository.

The embedding covers src/services/llm_parser_service.py (format detection,
Gemini / pydantic-ai to OpenAI conversion, canonical parsing and the
system-prompt / middle-messages / last-user-message partition) and the
function build_replay_messages of src/services/llm_execution_service.py.

Python JSON-compatible values are modelled by the inductive type Json below.
Python dicts are insertion-ordered association lists (CPython 3.7+ semantics:
assignment to an existing key keeps its position, a new key is appended).
Functions that can raise ValueError / KeyError / AttributeError and the
pydantic field validation performed when a ParsedLLMData model is constructed
are modelled with Except String.
-/

/-- A JSON-compatible Python value: None, bool, number, str, list or dict.
Numbers are modelled as exact rationals; the source never computes with them,
it only copies them between structures. -/
inductive Json where
  | null
  | bool (b : Bool)
  | num (q : Rat)
  | str (s : String)
  | arr (items : List Json)
  | obj (fields : List (String × Json))
deriving Repr

namespace Json

mutual

/-- Structural equality test for Json values (deriving cannot produce
DecidableEq for this nested inductive, so it is written by hand). -/
def beqJson : Json → Json → Bool
  | str x, str y => x == y
  | num x, num y => x == y
  | bool x, bool y => x == y
  | null, null => true
  | arr x, arr y => beqJsonList x y
  | obj x, obj y => beqJsonFields x y
  | _, _ => false

def beqJsonList : List Json → List Json → Bool
  | x :: xs, y :: ys => beqJson x y && beqJsonList xs ys
  | [], [] => true
  | _, _ => false

def beqJsonFields : List (String × Json) → List (String × Json) → Bool
  | (k, v) :: xs, (l, w) :: ys => k == l && beqJson v w && beqJsonFields xs ys
  | [], [] => true
  | _, _ => false

end

mutual

/-- Correctness of beqJson; stated as a def because it is an implementation
detail of the DecidableEq instance used by the data model. -/
def beqJson_iff_eq : ∀ a b : Json, beqJson a b = true ↔ a = b
  | arr x, arr y => by
    simp [beqJson, beqJsonList_iff_eq x y]
  | obj x, obj y => by
    simp [beqJson, beqJsonFields_iff_eq x y]
  | null, b => by cases b <;> simp [beqJson]
  | bool _, b => by cases b <;> simp [beqJson]
  | num _, b => by cases b <;> simp [beqJson]
  | str _, b => by cases b <;> simp [beqJson]
  | arr _, null | arr _, bool _ | arr _, num _ | arr _, str _ | arr _, obj _ => by
    simp [beqJson]
  | obj _, null | obj _, bool _ | obj _, num _ | obj _, str _ | obj _, arr _ => by
    simp [beqJson]

def beqJsonList_iff_eq : ∀ a b : List Json, beqJsonList a b = true ↔ a = b
  | x :: xs, y :: ys => by
    simp [beqJsonList, beqJson_iff_eq x y, beqJsonList_iff_eq xs ys]
  | [], [] => by simp [beqJsonList]
  | [], _ :: _ => by simp [beqJsonList]
  | _ :: _, [] => by simp [beqJsonList]

def beqJsonFields_iff_eq : ∀ a b : List (String × Json), beqJsonFields a b = true ↔ a = b
  | (k, v) :: xs, (l, w) :: ys => by
    simp [beqJsonFields, beqJson_iff_eq v w, beqJsonFields_iff_eq xs ys, and_assoc]
  | [], [] => by simp [beqJsonFields]
  | [], _ :: _ => by simp [beqJsonFields]
  | _ :: _, [] => by simp [beqJsonFields]

end

instance : DecidableEq Json := fun a b =>
  decidable_of_iff (beqJson a b = true) (beqJson_iff_eq a b)

end Json

/-- Lookup in an insertion-ordered dict (first matching key; Python dicts
cannot hold a key twice, so first and only). -/
def lookupField : List (String × Json) → String → Option Json
  | [], _ => none
  | (k', v) :: rest, k => if k' = k then some v else lookupField rest k

/-- Python `d.get(key, default)` on a value the source guarantees to be a
dict; a non-dict value yields the default (the callers of this total variant
never reach that case on inputs in the scope of the claims). -/
def Json.dget (j : Json) (k : String) (d : Json) : Json :=
  match j with
  | .obj kvs => (lookupField kvs k).getD d
  | _ => d

/-- Python `key in d` for a dict value (False on non-dicts). -/
def Json.dmem (j : Json) (k : String) : Bool :=
  match j with
  | .obj kvs => (lookupField kvs k).isSome
  | _ => false

/-- Python `d[key] = value`: replace in place if the key exists, else append
(CPython 3.7+ insertion-order semantics). -/
def setField (kvs : List (String × Json)) (k : String) (v : Json) :
    List (String × Json) :=
  match kvs with
  | [] => [(k, v)]
  | (k', v') :: rest => if k' = k then (k', v) :: rest else (k', v') :: setField rest k v

/-- Dict assignment lifted to Json values (identity on non-dicts; the source
only assigns into values it just created as dicts). -/
def Json.dset (j : Json) (k : String) (v : Json) : Json :=
  match j with
  | .obj kvs => .obj (setField kvs k v)
  | _ => j

/-- Python truthiness of a JSON-compatible value. -/
def Json.truthy : Json → Bool
  | .null => false
  | .bool b => b
  | .num q => decide (q ≠ 0)
  | .str s => decide (s ≠ "")
  | .arr xs => !xs.isEmpty
  | .obj kvs => !kvs.isEmpty

/-- Items of a JSON list value. The source iterates these fields with a
Python for loop; on the inputs within the scope of the claims the iterated
values are lists, and a non-list value contributes no items here. -/
def Json.asList : Json → List Json
  | .arr xs => xs
  | _ => []

/-- Python `x.get(key, default)` where `x` may fail to be a dict: a non-dict
raises AttributeError, which the enclosing try/except of the source turns
into the wrapped ValueError. -/
def pyGet (j : Json) (k : String) (d : Json) : Except String Json :=
  match j with
  | .obj kvs => .ok ((lookupField kvs k).getD d)
  | _ => .error "AttributeError: get"

/-- One lowercase hex digit. -/
def hexDigit (n : Nat) : Char :=
  if n < 10 then Char.ofNat (48 + n) else Char.ofNat (87 + n)

/-- Escape one character the way json.dumps (ensure_ascii=False) does. -/
def escapeChar (c : Char) : String :=
  if c = Char.ofNat 34 then "\\\""
  else if c = Char.ofNat 92 then "\\\\"
  else if c = Char.ofNat 10 then "\\n"
  else if c = Char.ofNat 9 then "\\t"
  else if c = Char.ofNat 13 then "\\r"
  else if c.toNat < 32 then
    "\\u00" ++ String.mk [hexDigit (c.toNat / 16), hexDigit (c.toNat % 16)]
  else String.mk [c]

def escapeString (s : String) : String :=
  String.join (s.data.map escapeChar)

/-- Decimal rendering of a JSON number, matching what json.dumps prints for
the numbers appearing in captures: integers without a fractional part,
terminating decimals in decimal notation. (Rationals with a
non-power-of-ten-dividing denominator cannot arise from parsed JSON text and
are rendered as a fraction; no claim depends on that case.) -/
def numDumps (q : Rat) : String :=
  if q.den = 1 then toString q.num
  else
    match (List.range 31).find? (fun k => q.den ∣ 10 ^ k) with
    | some k =>
      let scaled := q.num.natAbs * (10 ^ k / q.den)
      let intPart := scaled / 10 ^ k
      let fracDigits := Nat.toDigits 10 (scaled % 10 ^ k)
      let padded := List.replicate (k - fracDigits.length) '0' ++ fracDigits
      (if q.num < 0 then "-" else "") ++ toString intPart ++ "." ++ String.mk padded
    | none => toString q.num ++ "/" ++ toString q.den

mutual

/-- Python `json.dumps(value, ensure_ascii=False)` with default separators. -/
def jsonDumps : Json → String
  | .null => "null"
  | .bool true => "true"
  | .bool false => "false"
  | .num q => numDumps q
  | .str s => "\"" ++ escapeString s ++ "\""
  | .arr xs => "[" ++ dumpsItems xs ++ "]"
  | .obj kvs => "\x7b" ++ dumpsFields kvs ++ "\x7d"

def dumpsItems : List Json → String
  | [] => ""
  | [x] => jsonDumps x
  | x :: y :: rest => jsonDumps x ++ ", " ++ dumpsItems (y :: rest)

def dumpsFields : List (String × Json) → String
  | [] => ""
  | [(k, v)] => "\"" ++ escapeString k ++ "\": " ++ jsonDumps v
  | (k, v) :: e :: rest =>
    "\"" ++ escapeString k ++ "\": " ++ jsonDumps v ++ ", " ++ dumpsFields (e :: rest)

end

mutual

/-- Python `repr` of a JSON-compatible value (single-quoted strings,
True/False/None); only reached through pyStr on non-string values. -/
def pyRepr : Json → String
  | .null => "None"
  | .bool true => "True"
  | .bool false => "False"
  | .num q => numDumps q
  | .str s => "\x27" ++ s ++ "\x27"
  | .arr xs => "[" ++ reprItems xs ++ "]"
  | .obj kvs => "\x7b" ++ reprFields kvs ++ "\x7d"

def reprItems : List Json → String
  | [] => ""
  | [x] => pyRepr x
  | x :: y :: rest => pyRepr x ++ ", " ++ reprItems (y :: rest)

def reprFields : List (String × Json) → String
  | [] => ""
  | [(k, v)] => "\x27" ++ k ++ "\x27: " ++ pyRepr v
  | (k, v) :: e :: rest =>
    "\x27" ++ k ++ "\x27: " ++ pyRepr v ++ ", " ++ reprFields (e :: rest)

end

/-- Python `str(value)` for JSON-compatible values. -/
def pyStr : Json → String
  | .str s => s
  | j => pyRepr j

/-- Python `s.lower()` restricted to the JSON payloads in scope (ASCII case
mapping, as Char.toLower provides). -/
def pyLower (s : String) : String :=
  String.mk (s.data.map Char.toLower)

/-- Embedding of _convert_gemini_type_to_openai (llm_parser_service.py
lines 438-459): fixed table from uppercase Gemini type names to lowercase
OpenAI ones, unknown values passed through `.lower()`. -/
def convert_gemini_type_to_openai (gemini_type : String) : String :=
  if gemini_type = "BOOLEAN" then "boolean"
  else if gemini_type = "STRING" then "string"
  else if gemini_type = "OBJECT" then "object"
  else if gemini_type = "ARRAY" then "array"
  else if gemini_type = "INTEGER" then "integer"
  else if gemini_type = "NUMBER" then "number"
  else pyLower gemini_type

mutual

/-- Embedding of _convert_gemini_parameters_to_openai (lines 462-498):
recursively convert a Gemini parameter schema to OpenAI form. A non-dict
node is returned unchanged. -/
def convert_gemini_parameters_to_openai : Json → Json
  | .obj kvs => .obj (convertParamFields kvs)
  | j => j
termination_by j => (sizeOf j, 0)

/-- The `for key, value in parameters.items()` loop of
_convert_gemini_parameters_to_openai: each key keeps its position and gets
the branch-dependent converted value. -/
def convertParamFields : List (String × Json) → List (String × Json)
  | [] => []
  | (k, v) :: rest => (k, convertParamValue k v) :: convertParamFields rest
termination_by l => (sizeOf l, 0)

/-- The per-entry branch of _convert_gemini_parameters_to_openai: type
strings through the table, properties and dict-valued items recursively,
everything else verbatim. -/
def convertParamValue (k : String) (v : Json) : Json :=
  if k = "type" then
    match v with
    | .str t => Json.str (convert_gemini_type_to_openai t)
    | _ => v
  else if k = "properties" then
    match v with
    | .obj props => Json.obj (convertPropFields props)
    | _ => v
  else if k = "items" then
    match v with
    | .obj items => convert_gemini_parameters_to_openai (.obj items)
    | _ => v
  else v
termination_by (sizeOf v, 1)

/-- The dict comprehension over `properties` entries in
_convert_gemini_parameters_to_openai. -/
def convertPropFields : List (String × Json) → List (String × Json)
  | [] => []
  | (pk, pv) :: rest =>
    (pk, convert_gemini_parameters_to_openai pv) :: convertPropFields rest
termination_by l => (sizeOf l, 0)

end

/-- Python `s.strip()` (whitespace strip). -/
def pyStrip (s : String) : String :=
  s.trim

/-- The items of a segment list are joined with a separator; a non-string
item makes Python raise TypeError inside str.join, which the enclosing
try/except of the source turns into the wrapped ValueError. -/
def asStringList : List Json → Option (List String)
  | [] => some []
  | .str s :: rest => (asStringList rest).map (s :: ·)
  | _ => none

def joinStrings (sep : String) (l : List Json) : Except String String :=
  match asStringList l with
  | some ss => .ok (String.intercalate sep ss)
  | none => .error "TypeError: sequence item: expected str instance"

/-- The ephemeral tool-call correlation state threaded through one Gemini
conversion pass: the dict literal built in _convert_gemini_to_openai_format
(lines 605-609) with keys counter, pending and pending_by_name. -/
structure ToolCallState where
  counter : Int
  pending : List (String × Option Json)
  pendingByName : List (Json × List String)
deriving Repr, DecidableEq

/-- Lookup in the pending-calls index (call id to pending name). -/
def lookupPending : List (String × Option Json) → String → Option (Option Json)
  | [], _ => none
  | (k', v) :: rest, k => if k' = k then some v else lookupPending rest k

/-- Python dict assignment on the pending-calls index. -/
def setPending : List (String × Option Json) → String → Option Json →
    List (String × Option Json)
  | [], k, v => [(k, v)]
  | (k', v') :: rest, k, v =>
    if k' = k then (k', v) :: rest else (k', v') :: setPending rest k v

/-- Python `dict.pop(key, None)` on the pending-calls index. -/
def removePending : List (String × Option Json) → String →
    List (String × Option Json)
  | [], _ => []
  | (k', v') :: rest, k => if k' = k then rest else (k', v') :: removePending rest k

/-- Lookup in the pending-by-name index (function name to id queue). -/
def lookupByName : List (Json × List String) → Json → Option (List String)
  | [], _ => none
  | (n', q) :: rest, n => if n' = n then some q else lookupByName rest n

/-- Python dict assignment on the pending-by-name index. -/
def setByName : List (Json × List String) → Json → List String →
    List (Json × List String)
  | [], n, q => [(n, q)]
  | (n', q') :: rest, n, q =>
    if n' = n then (n', q) :: rest else (n', q') :: setByName rest n q

/-- Python `dict.pop(key, None)` on the pending-by-name index. -/
def removeByName : List (Json × List String) → Json → List (Json × List String)
  | [], _ => []
  | (n', q') :: rest, n => if n' = n then rest else (n', q') :: removeByName rest n

/-- Python `pending_by_name.setdefault(name, []).append(call_id)`. -/
def appendByName : List (Json × List String) → Json → String →
    List (Json × List String)
  | [], n, cid => [(n, [cid])]
  | (n', q) :: rest, n, cid =>
    if n' = n then (n', q ++ [cid]) :: rest else (n', q) :: appendByName rest n cid

/-- Python `list.remove(x)` wrapped in try/except ValueError: drop the first
occurrence, keep the list unchanged when absent. -/
def removeFirst : List String → String → List String
  | [], _ => []
  | x :: rest, y => if x = y then rest else x :: removeFirst rest y

/-- The per-message accumulators of _convert_gemini_parts_to_openai_message
(text_segments, tool_calls, extra_messages) plus the shared correlation
state. -/
structure GeminiAcc where
  textSegments : List Json
  toolCalls : List Json
  extraMessages : List Json
  state : ToolCallState

/-- One iteration of the `for part in parts` loop of
_convert_gemini_parts_to_openai_message (lines 323-418). -/
def convertGeminiPart (part : Json) (acc : GeminiAcc) : GeminiAcc :=
  if part.dmem "text" then
    { acc with textSegments := acc.textSegments ++ [part.dget "text" .null] }
  else if part.dmem "functionCall" then
    let fc0 := part.dget "functionCall" (.obj [])
    let fc := if fc0.truthy then fc0 else .obj []
    let name := fc.dget "name" (.str "")
    let args0 := fc.dget "args" .null
    let args1 := if args0 = .null then fc.dget "arguments" .null else args0
    let argumentsStr : String :=
      match args1 with
      | .str s => s
      | a => jsonDumps (if a.truthy then a else .obj [])
    let st := acc.state
    let resolved : String × ToolCallState :=
      match fc.dget "id" .null with
      | .str s =>
        if pyStrip s ≠ "" then (pyStrip s, st)
        else ("tool_call_" ++ toString st.counter, { st with counter := st.counter + 1 })
      | _ => ("tool_call_" ++ toString st.counter, { st with counter := st.counter + 1 })
    let call_id := resolved.1
    let st1 := resolved.2
    let pending1 := setPending st1.pending call_id (if name.truthy then some name else none)
    let byName1 :=
      if name.truthy then appendByName st1.pendingByName name call_id
      else st1.pendingByName
    let toolCall := Json.obj [("id", .str call_id), ("type", .str "function"),
      ("function", .obj [("name", name), ("arguments", .str argumentsStr)])]
    { acc with
        toolCalls := acc.toolCalls ++ [toolCall],
        state := { st1 with pending := pending1, pendingByName := byName1 } }
  else if part.dmem "functionResponse" then
    let fr0 := part.dget "functionResponse" (.obj [])
    let fr := if fr0.truthy then fr0 else .obj []
    let name := fr.dget "name" (.str "")
    let payload0 := fr.dget "response" .null
    let payload := if payload0 = .null then fr else payload0
    let content := jsonDumps (.obj [("name", name), ("response", payload)])
    let st := acc.state
    let afterExact : Option String × ToolCallState :=
      match fr.dget "id" .null with
      | .str s =>
        let rid := pyStrip s
        if rid ≠ "" then
          match lookupPending st.pending rid with
          | some pn =>
            let pending1 := removePending st.pending rid
            let pendingName : Option Json :=
              match pn with
              | some v => if v.truthy then some v else none
              | none => none
            match pendingName with
            | some pname =>
              let q := (lookupByName st.pendingByName pname).getD []
              let q1 := removeFirst q rid
              let byName1 :=
                if q1.isEmpty then removeByName st.pendingByName pname
                else setByName st.pendingByName pname q1
              (some rid, { st with pending := pending1, pendingByName := byName1 })
            | none => (some rid, { st with pending := pending1 })
          | none => (none, st)
        else (none, st)
      | _ => (none, st)
    let afterFallback : Option String × ToolCallState :=
      match afterExact.1 with
      | some cid => (some cid, afterExact.2)
      | none =>
        let st1 := afterExact.2
        if name.truthy then
          match lookupByName st1.pendingByName name with
          | some (cid :: q1) =>
            let byName1 :=
              if q1.isEmpty then removeByName st1.pendingByName name
              else setByName st1.pendingByName name q1
            (some cid,
              { st1 with
                  pendingByName := byName1,
                  pending := removePending st1.pending cid })
          | some [] => (none, st1)
          | none => (none, st1)
        else (none, st1)
    let idFields : List (String × Json) :=
      match afterFallback.1 with
      | some cid => if cid ≠ "" then [("tool_call_id", .str cid)] else []
      | none => []
    let toolMessage := Json.obj
      ([("role", .str "tool"), ("content", .str content)] ++ idFields)
    { acc with
        extraMessages := acc.extraMessages ++ [toolMessage],
        state := afterFallback.2 }
  else
    { acc with textSegments := acc.textSegments ++ [.str (jsonDumps part)] }

def convertGeminiParts : List Json → GeminiAcc → GeminiAcc
  | [], acc => acc
  | p :: rest, acc => convertGeminiParts rest (convertGeminiPart p acc)

/-- Embedding of _convert_gemini_parts_to_openai_message (lines 312-435):
convert one Gemini parts list into an optional primary OpenAI message plus
follow-up tool messages, threading the correlation state. -/
def convert_gemini_parts_to_openai_message (parts : List Json) (role : Json)
    (st : ToolCallState) :
    Except String ((Option Json × List Json) × ToolCallState) :=
  let acc := convertGeminiParts parts ⟨[], [], [], st⟩
  if acc.textSegments.isEmpty ∧ acc.toolCalls.isEmpty then
    .ok ((none, acc.extraMessages), acc.state)
  else
    match
      (if !acc.textSegments.isEmpty then
        match joinStrings "\n" acc.textSegments with
        | .ok c => .ok [("content", Json.str c)]
        | .error e => .error e
      else if role = .str "assistant" then .ok [("content", Json.str "")]
      else .ok ([] : List (String × Json)) :
        Except String (List (String × Json))) with
    | .error e => .error e
    | .ok contentFields =>
      let tcFields :=
        if !acc.toolCalls.isEmpty then [("tool_calls", Json.arr acc.toolCalls)]
        else []
      .ok ((some (.obj (("role", role) :: (contentFields ++ tcFields))),
        acc.extraMessages), acc.state)

/-- Embedding of _convert_gemini_parts_to_content (lines 293-309): collect
the text fields of the parts in order and join with a newline. -/
def convert_gemini_parts_to_content (parts : List Json) : Except String String :=
  joinStrings "\n" (parts.filterMap fun part =>
    if part.dmem "text" then some (part.dget "text" .null) else none)

/-- The scan of re.search for the pattern models followed by a colon-free
group: at the first position where the literal pattern occurs and is
followed by at least one non-colon character, capture the maximal non-colon
run; otherwise keep scanning. -/
def searchModelsAux (pat : List Char) : List Char → Option String
  | [] => none
  | c :: rest =>
    if pat.isPrefixOf (c :: rest) then
      let seg := ((c :: rest).drop pat.length).takeWhile (· ≠ ':')
      if seg.isEmpty then searchModelsAux pat rest else some (String.mk seg)
    else searchModelsAux pat rest

/-- Python substring membership test over character lists. -/
def isSubstring (pat : List Char) : List Char → Bool
  | [] => pat.isEmpty
  | c :: rest => pat.isPrefixOf (c :: rest) || isSubstring pat rest

/-- Embedding of _extract_model_from_url (lines 260-290): regex search on
http.target, then the message fallback, then the literal gemini-unknown
(also reached when a non-string value makes the Python helper raise into its
own catch-all). -/
def extract_model_from_url (raw : Json) : String :=
  let attributes := raw.dget "attributes" (.obj [])
  match attributes.dget "http.target" (.str "") with
  | .str urlPath =>
    match searchModelsAux "/models/".data urlPath.data with
    | some m => m
    | none =>
      match raw.dget "message" (.str "") with
      | .str message =>
        if isSubstring "gemini".data (pyLower message).data then
          match searchModelsAux "models/".data message.data with
          | some m => m
          | none => "gemini-unknown"
        else "gemini-unknown"
      | _ => "gemini-unknown"
  | _ => "gemini-unknown"

/-- The body of the inner loop of _convert_gemini_tools_to_openai: one
function declaration to one OpenAI tool dict. -/
def convertFuncDecl (funcDecl : Json) : Json :=
  let base := [("name", funcDecl.dget "name" (.str "")),
    ("description", funcDecl.dget "description" (.str ""))]
  let functionFields :=
    if funcDecl.dmem "parameters" then
      base ++ [("parameters",
        convert_gemini_parameters_to_openai (funcDecl.dget "parameters" .null))]
    else base
  Json.obj [("type", .str "function"), ("function", .obj functionFields)]

/-- Embedding of _convert_gemini_tools_to_openai (lines 501-567): flatten
all functionDeclarations groups, in order. -/
def convert_gemini_tools_to_openai : List Json → List Json
  | [] => []
  | tool :: rest =>
    (if tool.dmem "functionDeclarations" then
      (tool.dget "functionDeclarations" .null).asList.map convertFuncDecl
    else []) ++ convert_gemini_tools_to_openai rest

/-- The `for content in contents` loop of _convert_gemini_to_openai_format
(lines 611-625): per-entry role mapping (model to assistant) and part
conversion, emitting the primary message then the extra tool messages. -/
def convertGeminiContents : List Json → ToolCallState →
    Except String (List Json × ToolCallState)
  | [], st => .ok ([], st)
  | content :: rest, st =>
    let role0 := content.dget "role" (.str "user")
    let parts := (content.dget "parts" (.arr [])).asList
    let role := if role0 = .str "model" then Json.str "assistant" else role0
    match convert_gemini_parts_to_openai_message parts role st with
    | .error e => .error e
    | .ok r =>
      let here := (match r.1.1 with | some m => [m] | none => []) ++ r.1.2
      match convertGeminiContents rest r.2 with
      | .error e => .error e
      | .ok tail => .ok (here ++ tail.1, tail.2)

/-- Embedding of _convert_gemini_to_openai_format (lines 570-659): build the
OpenAI-shape request body from a Gemini capture and store it back under
http.request.body.text of a deep copy of the capture (the json round-trip
copy is value-identical, so the copy is the input value itself here). Any
exception is wrapped in the ValueError the source raises. -/
def convert_gemini_to_openai_format (raw : Json) : Except String Json :=
  let converted := raw
  let attributes := converted.dget "attributes" (.obj [])
  let requestBody := attributes.dget "http.request.body.text" (.obj [])
  let contents := requestBody.dget "contents" (.arr [])
  let systemInstruction := requestBody.dget "systemInstruction" .null
  let tools := requestBody.dget "tools" (.arr [])
  let generationConfig := requestBody.dget "generationConfig" (.obj [])
  match
    (if systemInstruction.truthy ∧ systemInstruction.dmem "parts" then
      match convert_gemini_parts_to_content
          ((systemInstruction.dget "parts" .null).asList) with
      | .error e => .error ("Failed to convert Gemini format: " ++ e)
      | .ok systemContent =>
        if systemContent ≠ "" then
          .ok [Json.obj [("role", .str "system"), ("content", .str systemContent)]]
        else .ok []
    else .ok ([] : List Json) : Except String (List Json)) with
  | .error e => .error e
  | .ok sysMessages =>
  match convertGeminiContents contents.asList ⟨1, [], []⟩ with
  | .error e => .error ("Failed to convert Gemini format: " ++ e)
  | .ok converted_contents =>
  let openaiMessages := sysMessages ++ converted_contents.1
  let modelName := extract_model_from_url raw
  let body0 := [("messages", Json.arr openaiMessages), ("model", Json.str modelName)]
  let body1 :=
    if tools.truthy then
      let openaiTools := convert_gemini_tools_to_openai tools.asList
      if !openaiTools.isEmpty then body0 ++ [("tools", Json.arr openaiTools)]
      else body0
    else body0
  let body2 :=
    if generationConfig.truthy then
      (body1 ++
        (if generationConfig.dmem "temperature" then
          [("temperature", generationConfig.dget "temperature" .null)] else []) ++
        (if generationConfig.dmem "maxOutputTokens" then
          [("max_tokens", generationConfig.dget "maxOutputTokens" .null)] else []) ++
        (if generationConfig.dmem "topP" then
          [("top_p", generationConfig.dget "topP" .null)] else []))
    else body1
  .ok (converted.dset "attributes"
    (attributes.dset "http.request.body.text" (.obj body2)))

/-- Embedding of _detect_data_source (lines 662-684). -/
def detect_data_source (raw : Json) : String :=
  let attributes := raw.dget "attributes" (.obj [])
  if attributes.dmem "gen_ai.input.messages" then "pydantic_ai"
  else if attributes.dmem "http.request.body.text" then "http_body"
  else "unknown"

/-- Embedding of _detect_api_format (lines 186-201). -/
def detect_api_format (requestBody : Json) : String :=
  if requestBody.dmem "messages" ∧ requestBody.dmem "model" then "openai"
  else if requestBody.dmem "contents" ∨ requestBody.dmem "systemInstruction" then
    "gemini"
  else "unknown"

/-- Embedding of _validate_openai_format (lines 204-224). -/
def validate_openai_format (requestBody : Json) : Bool :=
  match requestBody.dget "messages" .null with
  | .arr messages =>
    if messages.isEmpty then false
    else
      match requestBody.dget "model" .null with
      | .str model =>
        if model = "" then false
        else
          messages.all fun message =>
            match message with
            | .obj _ =>
              message.dmem "role" && message.dmem "content" &&
                (match message.dget "role" .null with
                 | .str r =>
                   decide (r = "system" ∨ r = "user" ∨ r = "assistant" ∨ r = "tool")
                 | _ => false)
            | _ => false
      | _ => false
  | _ => false

/-- Embedding of _convert_pydantic_ai_parts_to_content (lines 719-737):
keep only parts carrying a content or text key, stringify those values and
join with a newline. Dict parts with neither key contribute nothing. On a
part that is not a dict the Python `in` raises TypeError instead; claims
exclude that domain with the parts-are-dicts well-formedness hypotheses. -/
def convert_pydantic_ai_parts_to_content (parts : List Json) : String :=
  String.intercalate "\n" (parts.filterMap fun part =>
    if part.dmem "content" then some (pyStr (part.dget "content" .null))
    else if part.dmem "text" then some (pyStr (part.dget "text" .null))
    else none)

/-- The `for instruction in system_instructions` loop of
_convert_pydantic_ai_to_openai_format (lines 786-799), collecting
system_content_parts. -/
def extractSystemContentParts : List Json → List String
  | [] => []
  | instruction :: rest =>
    (match instruction with
     | .obj _ =>
       if instruction.dmem "content" then [pyStr (instruction.dget "content" .null)]
       else if instruction.dmem "parts" then
         let c := convert_pydantic_ai_parts_to_content
           ((instruction.dget "parts" (.arr [])).asList)
         if c ≠ "" then [c] else []
       else []
     | .str s => [s]
     | _ => []) ++ extractSystemContentParts rest

/-- Embedding of _convert_pydantic_ai_tool_to_openai (lines 740-757). -/
def convert_pydantic_ai_tool_to_openai (tool : Json) : Json :=
  Json.obj [("type", .str "function"), ("function", .obj [
    ("name", tool.dget "name" (.str "")),
    ("description", tool.dget "description" (.str "")),
    ("parameters", tool.dget "parameters_json_schema" (.obj []))])]

/-- The conversion of one gen_ai.input.messages entry (lines 812-819). -/
def convertPydanticInputMessage (msg : Json) : Json :=
  Json.obj [("role", msg.dget "role" (.str "user")),
    ("content", .str (convert_pydantic_ai_parts_to_content
      ((msg.dget "parts" (.arr [])).asList)))]

/-- Embedding of _convert_pydantic_ai_to_openai_format (lines 760-864):
synthesize an OpenAI-shape request body from the gen_ai attributes and store
it under http.request.body.text of the (value-identical) deep copy. The
function is total here; on inputs outside the validated pydantic-ai shape
(non-dict message entries, non-list parts) the Python code raises instead,
which the claims exclude by well-formedness hypotheses. -/
def convert_pydantic_ai_to_openai_format (raw : Json) : Json :=
  let converted := raw
  let attributes := converted.dget "attributes" (.obj [])
  let systemInstructions := attributes.dget "gen_ai.system_instructions" (.arr [])
  let sysParts :=
    if systemInstructions.truthy then
      extractSystemContentParts systemInstructions.asList
    else []
  let sysMessages :=
    if !sysParts.isEmpty then
      [Json.obj [("role", .str "system"),
        ("content", .str (String.intercalate "\n" sysParts))]]
    else []
  let inputMessages := (attributes.dget "gen_ai.input.messages" (.arr [])).asList
  let openaiMessages := sysMessages ++ inputMessages.map convertPydanticInputMessage
  let modelName := attributes.dget "gen_ai.request.model" (.str "")
  let body0 := [("messages", Json.arr openaiMessages), ("model", modelName)]
  let body1 := body0 ++
    (if attributes.dmem "gen_ai.request.temperature" then
      [("temperature", attributes.dget "gen_ai.request.temperature" .null)]
    else []) ++
    (if attributes.dmem "gen_ai.request.max_tokens" then
      [("max_tokens", attributes.dget "gen_ai.request.max_tokens" .null)]
    else [])
  let modelParams := attributes.dget "model_request_parameters" (.obj [])
  let tools :=
    (let functionTools := modelParams.dget "function_tools" (.arr [])
     if functionTools.truthy then
       functionTools.asList.map convert_pydantic_ai_tool_to_openai
     else []) ++
    (let outputTools := modelParams.dget "output_tools" (.arr [])
     if outputTools.truthy then
       outputTools.asList.map convert_pydantic_ai_tool_to_openai
     else [])
  let body2 := if !tools.isEmpty then body1 ++ [("tools", Json.arr tools)] else body1
  converted.dset "attributes"
    (attributes.dset "http.request.body.text" (.obj body2))

/-- The direct-mapping loop of parse_llm_raw_data (lines 104-114): collect
whitelisted generation-parameter keys present in the request body, in the
fixed iteration order of the source. -/
def collectSettings (requestBody : Json) : List String → List (String × Json)
  | [] => []
  | k :: rest =>
    (if requestBody.dmem k then [(k, requestBody.dget k .null)] else []) ++
      collectSettings requestBody rest

/-- The whitelist of directly mapped generation-parameter keys, in the
iteration order of the source (lines 105-112). -/
def settingsWhitelist : List String :=
  ["temperature", "top_p", "parallel_tool_calls", "seed",
   "presence_penalty", "frequency_penalty"]

/-- The max-token aliasing entry of parse_llm_raw_data (lines 116-120):
max_completion_tokens takes priority over max_tokens, stored under the
canonical key; the dict assignment is an append because max_tokens is not a
whitelisted key. -/
def maxTokensPart (requestBody : Json) : List (String × Json) :=
  if requestBody.dmem "max_completion_tokens" then
    [("max_tokens", requestBody.dget "max_completion_tokens" .null)]
  else if requestBody.dmem "max_tokens" then
    [("max_tokens", requestBody.dget "max_tokens" .null)]
  else []

/-- The model_settings extraction of parse_llm_raw_data (lines 101-123):
whitelisted keys, the max_completion_tokens over max_tokens aliasing, and
the collapse of an empty mapping to None. -/
def extract_model_settings (requestBody : Json) : Option (List (String × Json)) :=
  let ms := collectSettings requestBody settingsWhitelist ++ maxTokensPart requestBody
  if ms.isEmpty then none else some ms

/-- The forward scan of parse_llm_raw_data for the first system message
(lines 132-140): returns its content (default empty) and its index, or the
sentinel index -1 when none exists. -/
def findSystemPromptAux : List Json → Int → Except String (Json × Int)
  | [], _ => .ok (.str "", -1)
  | message :: rest, i =>
    match pyGet message "role" .null with
    | .error e => .error e
    | .ok role =>
      if role = .str "system" then
        match pyGet message "content" (.str "") with
        | .error e => .error e
        | .ok c => .ok (c, i)
      else findSystemPromptAux rest (i + 1)

/-- The backward scan of parse_llm_raw_data for the last non-assistant
message (lines 142-153), run over the reversed list with a descending
index; a tool message is serialized whole. -/
def findLastUserAux : List Json → Int → Except String (Json × Int)
  | [], _ => .ok (.str "", -1)
  | message :: rest, i =>
    match pyGet message "role" .null with
    | .error e => .error e
    | .ok role =>
      if role ≠ .str "assistant" then
        if role = .str "tool" then .ok (.str (jsonDumps message), i)
        else
          match pyGet message "content" (.str "") with
          | .error e => .error e
          | .ok c => .ok (c, i)
      else findLastUserAux rest (i - 1)

/-- The middle-messages loop of parse_llm_raw_data (lines 155-159): keep
every message whose index is neither the system index nor the last-user
index. -/
def buildMiddleAux : List Json → Int → Int → Int → List Json
  | [], _, _, _ => []
  | message :: rest, i, si, li =>
    (if i ≠ si ∧ i ≠ li then [message] else []) ++ buildMiddleAux rest (i + 1) si li

/-- The ParsedLLMData pydantic model (lines 22-37). -/
structure ParsedLLMData where
  middle_messages : List Json
  tools : Option (List Json)
  model_name : String
  model_settings : Option (List (String × Json))
  system_prompt : String
  last_user_message : String
deriving Repr, DecidableEq

/-- Construction of the ParsedLLMData pydantic model (lines 169-176)
including the field validation pydantic performs: middle_messages must be a
list of dicts, tools None or a list of dicts, and the model name, system
prompt and last user message must be strings. -/
def mkParsedLLMData (middle : List Json) (tools : Json) (modelName : Json)
    (settings : Option (List (String × Json))) (systemPrompt lastUser : Json) :
    Except String ParsedLLMData :=
  match modelName with
  | .str mn =>
    match systemPrompt with
    | .str sp =>
      match lastUser with
      | .str lu =>
        if middle.all (fun m => match m with | .obj _ => true | _ => false) then
          match (if tools.truthy then
              match tools with
              | .arr items =>
                if items.all (fun t => match t with | .obj _ => true | _ => false) then
                  Except.ok (some items)
                else Except.error "ValidationError: tools items must be dicts"
              | _ => Except.error "ValidationError: tools must be a list"
            else Except.ok none : Except String (Option (List Json))) with
          | .ok t => .ok ⟨middle, t, mn, settings, sp, lu⟩
          | .error e => .error e
        else .error "ValidationError: middle_messages items must be dicts"
      | _ => .error "ValidationError: string field expected"
    | _ => .error "ValidationError: string field expected"
  | _ => .error "ValidationError: string field expected"

/-- The format-detection and conversion prefix of parse_llm_raw_data
(lines 60-94), producing the OpenAI-shape request body. Error strings carry
the wrapped message the outer except-clause of the source produces. -/
def parseCanonicalRequestBody (raw : Json) : Except String Json :=
  let attributes := raw.dget "attributes" (.obj [])
  if !attributes.truthy then
    .error "Invalid raw data format: Missing \x27attributes\x27 in raw data"
  else
    let dataSource := detect_data_source raw
    if dataSource = "pydantic_ai" then
      let converted := convert_pydantic_ai_to_openai_format raw
      .ok ((converted.dget "attributes" (.obj [])).dget "http.request.body.text"
        (.obj []))
    else if dataSource = "http_body" then
      let requestBody := attributes.dget "http.request.body.text" (.obj [])
      if !requestBody.truthy then
        .error
          "Invalid raw data format: Missing \x27http.request.body.text\x27 in raw data"
      else
        let apiFormat := detect_api_format requestBody
        if apiFormat = "gemini" then
          match convert_gemini_to_openai_format raw with
          | .ok converted =>
            .ok ((converted.dget "attributes" (.obj [])).dget
              "http.request.body.text" (.obj []))
          | .error e => .error ("Invalid raw data format: " ++ e)
        else if apiFormat ≠ "openai" then
          .error ("Invalid raw data format: Unsupported API format: " ++ apiFormat)
        else .ok requestBody
    else
      .error ("Invalid raw data format: Unsupported data source format: " ++ dataSource)

/-- Embedding of parse_llm_raw_data (lines 40-183): detection, conversion,
settings extraction, the two partition scans and the middle-messages build,
ending in the validated ParsedLLMData construction. Exceptions of the
(KeyError, ValueError) clause carry the Invalid-raw-data-format prefix,
everything else the Failed-to-parse prefix, as in the source. -/
def parse_llm_raw_data (raw : Json) : Except String ParsedLLMData :=
  match parseCanonicalRequestBody raw with
  | .error e => .error e
  | .ok requestBody =>
  let allMessagesJ := requestBody.dget "messages" (.arr [])
  let toolsJ := requestBody.dget "tools" (.arr [])
  let modelNameJ := requestBody.dget "model" (.str "")
  let modelSettings := extract_model_settings requestBody
  if !allMessagesJ.truthy then
    .error "Invalid raw data format: No messages found in request body"
  else if !modelNameJ.truthy then
    .error "Invalid raw data format: No model specified in request body"
  else
    match allMessagesJ with
    | .arr allMessages =>
      (match findSystemPromptAux allMessages 0 with
      | .error e => .error ("Failed to parse raw data: " ++ e)
      | .ok sys =>
      match findLastUserAux allMessages.reverse ((allMessages.length : Int) - 1) with
      | .error e => .error ("Failed to parse raw data: " ++ e)
      | .ok lastu =>
      let middle := buildMiddleAux allMessages 0 sys.2 lastu.2
      match mkParsedLLMData middle toolsJ modelNameJ modelSettings sys.1 lastu.1 with
      | .error e => .error ("Invalid raw data format: " ++ e)
      | .ok parsed => .ok parsed)
    | _ => .error "Failed to parse raw data: messages value is not a list"

/-- Embedding of build_replay_messages
(src/services/llm_execution_service.py lines 285-320): system message iff
the system prompt is non-empty, the middle messages verbatim, then a user
message iff the user message is non-empty. -/
def build_replay_messages (system_prompt : String) (middle_messages : List Json)
    (user_message : String) : List Json :=
  (if system_prompt ≠ "" then
    [Json.obj [("role", Json.str "system"), ("content", Json.str system_prompt)]]
  else []) ++
  middle_messages ++
  (if user_message ≠ "" then
    [Json.obj [("role", Json.str "user"), ("content", Json.str user_message)]]
  else [])

/-- A plain role/content message dict, the shape build_replay_messages
re-emits for the system and user slots. -/
def mkRoleContentMsg (role content : String) : Json :=
  Json.obj [("role", .str role), ("content", .str content)]

/-- Whether a value is a Python dict. -/
def isObjB : Json → Bool
  | .obj _ => true
  | _ => false

/-- Well-formedness of the parts field of a pydantic-ai entry: a list of
dicts (the shape on which the Python loop body runs without raising). -/
def pydanticPartsWF (m : Json) : Bool :=
  match m.dget "parts" (.arr []) with
  | .arr parts => parts.all isObjB
  | _ => false

/-- Well-formedness of one gen_ai.input.messages entry. -/
def pydanticMsgWF (m : Json) : Bool :=
  isObjB m && pydanticPartsWF m

/-- Well-formedness of one gen_ai.system_instructions entry: non-dicts are
skipped by the isinstance checks, a dict with a content key is stringified
directly, a dict without one has its parts iterated. -/
def sysInstructionWF (i : Json) : Bool :=
  match i with
  | .obj _ => if i.dmem "content" then true else pydanticPartsWF i
  | _ => true

/-- Well-formedness of the model_request_parameters attribute: a dict whose
function_tools and output_tools fields are lists of dicts. -/
def pydanticToolParamsWF (attrsJ : Json) : Bool :=
  match attrsJ.dget "model_request_parameters" (.obj []) with
  | .obj mp =>
    (match (Json.obj mp).dget "function_tools" (.arr []) with
     | .arr ts => ts.all isObjB
     | _ => false) &&
    (match (Json.obj mp).dget "output_tools" (.arr []) with
     | .arr ts => ts.all isObjB
     | _ => false)
  | _ => false

/-- A message violating the per-message structural rules of
_validate_openai_format: not a dict, or missing a role or content key, or
carrying a role outside system/user/assistant/tool. -/
def openaiMessageStructurallyInvalid (m : Json) : Bool :=
  match m with
  | .obj _ =>
    !(m.dmem "role") || !(m.dmem "content") ||
      (match m.dget "role" .null with
       | .str r => !(decide (r = "system" ∨ r = "user" ∨ r = "assistant" ∨ r = "tool"))
       | _ => true)
  | _ => true

/-- A Gemini functionCall part without a source-supplied id. -/
def geminiCallPart (name : String) (args : Json) : Json :=
  Json.obj [("functionCall", .obj [("name", .str name), ("args", args)])]

/-- A Gemini functionResponse part without a usable id. -/
def geminiResponsePart (name : String) (payload : Json) : Json :=
  Json.obj [("functionResponse", .obj [("name", .str name), ("response", payload)])]

/-- An OpenAI tool-call entry as the Gemini converter builds it. -/
def toolCallJson (id name args : String) : Json :=
  Json.obj [("id", .str id), ("type", .str "function"),
    ("function", .obj [("name", .str name), ("arguments", .str args)])]

/-- The FIFO pairing scenario of the spec: one model turn issuing a call to
g and two calls to f (no ids), then a turn with two responses for f (no
ids). -/
def fifoContents (g f : String) (aG a1 a2 : Json) (p1 p2 : Json) : List Json :=
  [Json.obj [("role", .str "model"),
    ("parts", .arr [geminiCallPart g aG, geminiCallPart f a1, geminiCallPart f a2])],
   Json.obj [("role", .str "user"),
    ("parts", .arr [geminiResponsePart f p1, geminiResponsePart f p2])]]

/-- The OpenAI-shape end-to-end example capture of the spec. -/
def openaiEndToEndCapture : Json :=
  Json.obj [("attributes", .obj [("http.request.body.text", .obj [
    ("messages", .arr [
      mkRoleContentMsg "system" "Be terse.",
      mkRoleContentMsg "user" "Hi",
      mkRoleContentMsg "assistant" "Hello.",
      mkRoleContentMsg "user" "Bye"]),
    ("model", .str "gpt-4o-mini"),
    ("temperature", .num 0.5)])])]

/-- A capture whose canonical list ends in an assistant turn: the last
non-assistant turn is not in final position. -/
def reorderingCapture : Json :=
  Json.obj [("attributes", .obj [("http.request.body.text", .obj [
    ("messages", .arr [
      mkRoleContentMsg "user" "a",
      mkRoleContentMsg "assistant" "b"]),
    ("model", .str "m")])])]

/-- An http_body_openai capture whose single message has no content key
(structurally invalid per _validate_openai_format). -/
def missingContentCapture : Json :=
  Json.obj [("attributes", .obj [("http.request.body.text", .obj [
    ("messages", .arr [Json.obj [("role", .str "user")]]),
    ("model", .str "m")])])]

/-- The request body of the settings-extraction example. -/
def aliasSettingsBody : Json :=
  Json.obj [("temperature", .num 0.2), ("max_completion_tokens", .num 1000)]

/-- Lookup of one key in an optional settings mapping (None has no keys). -/
def settingsLookup (o : Option (List (String × Json))) (k : String) : Option Json :=
  match o with
  | some ms => lookupField ms k
  | none => none

/-- The gen_ai.system_instructions list of the C7 precedence capture. -/
def c7instrs : List Json :=
  [Json.obj [("content", .str "Be brief.")]]

/-- The gen_ai.input.messages list of the C7 precedence capture: an in-band
role system entry followed by a user entry. -/
def c7msgs : List Json :=
  [Json.obj [("role", .str "system"),
     ("parts", .arr [Json.obj [("content", .str "inband")]])],
   Json.obj [("role", .str "user"),
     ("parts", .arr [Json.obj [("content", .str "Hi")]])]]

/-- The attributes dict of the C7 precedence capture. -/
def c7attrs : List (String × Json) :=
  [("gen_ai.system_instructions", .arr c7instrs),
   ("gen_ai.input.messages", .arr c7msgs),
   ("gen_ai.request.model", .str "gemini-pro")]

/-- The C7 precedence capture as the top-level key-value list. -/
def c7rkvs : List (String × Json) :=
  [("attributes", Json.obj c7attrs)]

theorem char_toNat_ofNat (n : Nat) (h : n < 55296) : (Char.ofNat n).toNat = n := by
  have hv : Nat.isValidChar n := Or.inl h
  simp [Char.ofNat, hv, Char.ofNatAux, Char.toNat, UInt32.ofNat', UInt32.toNat,
    BitVec.toNat_ofNatLt]

theorem char_toLower_toLower (c : Char) :
    Char.toLower (Char.toLower c) = Char.toLower c := by
  unfold Char.toLower
  by_cases h : c.toNat ≥ 65 ∧ c.toNat ≤ 90
  · have hv : (Char.ofNat (c.toNat + 32)).toNat = c.toNat + 32 :=
      char_toNat_ofNat _ (by omega)
    rw [if_pos h, hv]
    have hn : ¬((c.toNat + 32) ≥ 65 ∧ (c.toNat + 32) ≤ 90) := by omega
    rw [if_neg hn]
  · rw [if_neg h, if_neg h]

theorem char_toLower_ne_upper (c u : Char) (h65 : 65 ≤ u.toNat) (h90 : u.toNat ≤ 90) :
    Char.toLower c ≠ u := by
  intro he
  have hnat : (Char.toLower c).toNat = u.toNat := by rw [he]
  unfold Char.toLower at hnat
  by_cases h : c.toNat ≥ 65 ∧ c.toNat ≤ 90
  · rw [if_pos h, char_toNat_ofNat _ (by omega)] at hnat
    omega
  · rw [if_neg h] at hnat
    omega

theorem pyLower_data (s : String) : (pyLower s).data = s.data.map Char.toLower := by
  simp [pyLower]

theorem pyLower_pyLower (s : String) : pyLower (pyLower s) = pyLower s := by
  apply String.ext
  simp [pyLower_data, Function.comp, char_toLower_toLower]

theorem pyLower_ne_upperhead (t u : String) (c : Char) (cs : List Char)
    (hu : u.data = c :: cs) (h65 : 65 ≤ c.toNat) (h90 : c.toNat ≤ 90) :
    pyLower t ≠ u := by
  intro he
  have hdata : (pyLower t).data = c :: cs := by rw [he, hu]
  rw [pyLower_data] at hdata
  rcases List.map_eq_cons_iff.mp hdata with ⟨c', cs', _, hc', _⟩
  exact char_toLower_ne_upper c' c h65 h90 hc'

theorem type_conv_idem (t : String) :
    convert_gemini_type_to_openai (convert_gemini_type_to_openai t) =
      convert_gemini_type_to_openai t := by
  by_cases h1 : t = "BOOLEAN"
  · rw [h1]; decide
  by_cases h2 : t = "STRING"
  · rw [h2]; decide
  by_cases h3 : t = "OBJECT"
  · rw [h3]; decide
  by_cases h4 : t = "ARRAY"
  · rw [h4]; decide
  by_cases h5 : t = "INTEGER"
  · rw [h5]; decide
  by_cases h6 : t = "NUMBER"
  · rw [h6]; decide
  have hlow : convert_gemini_type_to_openai t = pyLower t := by
    unfold convert_gemini_type_to_openai
    rw [if_neg h1, if_neg h2, if_neg h3, if_neg h4, if_neg h5, if_neg h6]
  rw [hlow]
  unfold convert_gemini_type_to_openai
  rw [if_neg (pyLower_ne_upperhead t _ 'B' ['O','O','L','E','A','N'] (by decide) (by decide) (by decide)),
    if_neg (pyLower_ne_upperhead t _ 'S' ['T','R','I','N','G'] (by decide) (by decide) (by decide)),
    if_neg (pyLower_ne_upperhead t _ 'O' ['B','J','E','C','T'] (by decide) (by decide) (by decide)),
    if_neg (pyLower_ne_upperhead t _ 'A' ['R','R','A','Y'] (by decide) (by decide) (by decide)),
    if_neg (pyLower_ne_upperhead t _ 'I' ['N','T','E','G','E','R'] (by decide) (by decide) (by decide)),
    if_neg (pyLower_ne_upperhead t _ 'N' ['U','M','B','E','R'] (by decide) (by decide) (by decide))]
  exact pyLower_pyLower t

mutual

theorem conv_params_idem : (j : Json) →
    convert_gemini_parameters_to_openai (convert_gemini_parameters_to_openai j) =
      convert_gemini_parameters_to_openai j
  | .null => by simp [convert_gemini_parameters_to_openai]
  | .bool _ => by simp [convert_gemini_parameters_to_openai]
  | .num _ => by simp [convert_gemini_parameters_to_openai]
  | .str _ => by simp [convert_gemini_parameters_to_openai]
  | .arr _ => by simp [convert_gemini_parameters_to_openai]
  | .obj kvs => by
    simp only [convert_gemini_parameters_to_openai]
    rw [convParamFields_idem kvs]
termination_by j => (sizeOf j, 0)

theorem convParamFields_idem : (l : List (String × Json)) →
    convertParamFields (convertParamFields l) = convertParamFields l
  | [] => by simp [convertParamFields]
  | (k, v) :: rest => by
    simp only [convertParamFields]
    rw [convParamValue_idem k v, convParamFields_idem rest]
termination_by l => (sizeOf l, 0)

theorem convParamValue_idem : (k : String) → (v : Json) →
    convertParamValue k (convertParamValue k v) = convertParamValue k v
  | k, v => by
    by_cases h1 : k = "type"
    · subst h1
      cases v <;> simp [convertParamValue, type_conv_idem]
    · by_cases h2 : k = "properties"
      · subst h2
        cases v with
        | obj props =>
          simp [convertParamValue]
          exact convPropFields_idem props
        | null => simp [convertParamValue]
        | bool b => simp [convertParamValue]
        | num q => simp [convertParamValue]
        | str s => simp [convertParamValue]
        | arr xs => simp [convertParamValue]
      · by_cases h3 : k = "items"
        · subst h3
          cases v with
          | obj items =>
            simp [convertParamValue, convert_gemini_parameters_to_openai]
            exact convParamFields_idem items
          | null => simp [convertParamValue]
          | bool b => simp [convertParamValue]
          | num q => simp [convertParamValue]
          | str s => simp [convertParamValue]
          | arr xs => simp [convertParamValue]
        · unfold convertParamValue
          simp only [if_neg h1, if_neg h2, if_neg h3]
          unfold convertParamValue
          simp only [if_neg h1, if_neg h2, if_neg h3]
termination_by _ v => (sizeOf v, 1)

theorem convPropFields_idem : (l : List (String × Json)) →
    convertPropFields (convertPropFields l) = convertPropFields l
  | [] => by simp [convertPropFields]
  | (pk, pv) :: rest => by
    simp only [convertPropFields]
    rw [conv_params_idem pv, convPropFields_idem rest]
termination_by l => (sizeOf l, 0)

end

/-- C9: applying the Gemini-to-OpenAI parameter schema conversion twice
yields the same result as applying it once, for every JSON node; in
particular an uppercase type maps to lowercase and an already-lowercase
schema maps to itself. -/
theorem claim_C9_type_conversion_idempotent :
    (∀ s : Json,
      convert_gemini_parameters_to_openai (convert_gemini_parameters_to_openai s) =
        convert_gemini_parameters_to_openai s) ∧
    convert_gemini_parameters_to_openai (.obj [("type", .str "STRING")]) =
      .obj [("type", .str "string")] ∧
    convert_gemini_parameters_to_openai (.obj [("type", .str "string")]) =
      .obj [("type", .str "string")] :=
  ⟨conv_params_idem,
    by simp [convert_gemini_parameters_to_openai, convertParamFields,
      convertParamValue, convert_gemini_type_to_openai],
    by simp [convert_gemini_parameters_to_openai, convertParamFields,
      convertParamValue, convert_gemini_type_to_openai, pyLower]⟩

/-- C2: parsing the specific OpenAI-shape capture with messages system,
user Hi, assistant Hello., user Bye, model gpt-4o-mini and temperature 0.5
yields exactly the stated system prompt, last user message, middle
messages, model name and model settings. -/
theorem claim_C2_end_to_end_example :
    parse_llm_raw_data openaiEndToEndCapture = .ok
      { middle_messages := [mkRoleContentMsg "user" "Hi",
          mkRoleContentMsg "assistant" "Hello."],
        tools := none,
        model_name := "gpt-4o-mini",
        model_settings := some [("temperature", Json.num 0.5)],
        system_prompt := "Be terse.",
        last_user_message := "Bye" } := by
  rfl

/-- C8: a capture whose attributes map is empty or contains neither the
http.request.body.text field nor the gen_ai.input.messages field makes
parse_llm_raw_data produce the single invalid-capture error and no result. -/
theorem claim_C8_unknown_format_rejection (raw : Json)
    (h : ¬(raw.dget "attributes" (.obj [])).truthy ∨
      (¬(raw.dget "attributes" (.obj [])).dmem "gen_ai.input.messages" ∧
       ¬(raw.dget "attributes" (.obj [])).dmem "http.request.body.text")) :
    parse_llm_raw_data raw =
        .error "Invalid raw data format: Missing \x27attributes\x27 in raw data" ∨
    parse_llm_raw_data raw =
        .error "Invalid raw data format: Unsupported data source format: unknown" := by
  by_cases ht : (raw.dget "attributes" (.obj [])).truthy
  · rcases h with h | ⟨h1, h2⟩
    · exact absurd ht h
    · right
      unfold parse_llm_raw_data parseCanonicalRequestBody detect_data_source
      simp [ht, h1, h2]
  · left
    unfold parse_llm_raw_data parseCanonicalRequestBody
    simp [ht]

/-- C8 witness: the hypothesis and conclusion hold at the concrete capture
with attributes containing only an unrelated key. -/
theorem claim_C8_unknown_format_rejection_witness :
    ((¬((Json.obj [("attributes", Json.obj [("foo", Json.num 1)])]).dget
        "attributes" (.obj [])).dmem "gen_ai.input.messages" ∧
      ¬((Json.obj [("attributes", Json.obj [("foo", Json.num 1)])]).dget
        "attributes" (.obj [])).dmem "http.request.body.text") ∧
     (parse_llm_raw_data (Json.obj [("attributes", Json.obj [("foo", Json.num 1)])]) =
        .error "Invalid raw data format: Missing \x27attributes\x27 in raw data" ∨
      parse_llm_raw_data (Json.obj [("attributes", Json.obj [("foo", Json.num 1)])]) =
        .error "Invalid raw data format: Unsupported data source format: unknown")) :=
  ⟨⟨by decide, by decide⟩,
    claim_C8_unknown_format_rejection _ (Or.inr ⟨by decide, by decide⟩)⟩

/-- C4 counterexample: the http_body_openai capture whose single message has
no content key violates the structural validation, yet parse_llm_raw_data
returns a ParsedLLMData for it instead of raising. -/
theorem claim_C4_counterexample :
    validate_openai_format ((missingContentCapture.dget "attributes"
      (.obj [])).dget "http.request.body.text" (.obj [])) = false ∧
    parse_llm_raw_data missingContentCapture = .ok
      { middle_messages := [], tools := none, model_name := "m",
        model_settings := none, system_prompt := "", last_user_message := "" } :=
  ⟨rfl, rfl⟩

/-- C4 amended: of the structural validation rules, parse_llm_raw_data
itself short-circuits only on an empty message list and a missing or empty
model field, raising the wrapped invalid-capture error naming the field; the
per-message role/content rules, violated by any structurally invalid
message, are enforced only by the separate _validate_openai_format
predicate, which returns false for such a body while parse can still return
a ParsedLLMData. -/
theorem claim_C4_amended_partial_validation :
    (∀ raw : Json,
      (raw.dget "attributes" (.obj [])).truthy →
      ¬(raw.dget "attributes" (.obj [])).dmem "gen_ai.input.messages" →
      (raw.dget "attributes" (.obj [])).dmem "http.request.body.text" →
      ((raw.dget "attributes" (.obj [])).dget "http.request.body.text"
        (.obj [])).truthy →
      ((raw.dget "attributes" (.obj [])).dget "http.request.body.text"
        (.obj [])).dmem "messages" →
      ((raw.dget "attributes" (.obj [])).dget "http.request.body.text"
        (.obj [])).dmem "model" →
      ¬(((raw.dget "attributes" (.obj [])).dget "http.request.body.text"
        (.obj [])).dget "messages" (.arr [])).truthy →
      parse_llm_raw_data raw =
        .error "Invalid raw data format: No messages found in request body") ∧
    (∀ raw : Json,
      (raw.dget "attributes" (.obj [])).truthy →
      ¬(raw.dget "attributes" (.obj [])).dmem "gen_ai.input.messages" →
      (raw.dget "attributes" (.obj [])).dmem "http.request.body.text" →
      ((raw.dget "attributes" (.obj [])).dget "http.request.body.text"
        (.obj [])).truthy →
      ((raw.dget "attributes" (.obj [])).dget "http.request.body.text"
        (.obj [])).dmem "messages" →
      ((raw.dget "attributes" (.obj [])).dget "http.request.body.text"
        (.obj [])).dmem "model" →
      (((raw.dget "attributes" (.obj [])).dget "http.request.body.text"
        (.obj [])).dget "messages" (.arr [])).truthy →
      ¬(((raw.dget "attributes" (.obj [])).dget "http.request.body.text"
        (.obj [])).dget "model" (.str "")).truthy →
      parse_llm_raw_data raw =
        .error "Invalid raw data format: No model specified in request body") ∧
    (∀ (body : Json) (msgs : List Json) (m : Json),
      body.dget "messages" .null = .arr msgs → m ∈ msgs →
      openaiMessageStructurallyInvalid m →
      validate_openai_format body = false) := by
  refine ⟨?_, ?_, ?_⟩
  · intro raw ht hpy hmem hbt hmsgs hmodel hempty
    unfold parse_llm_raw_data parseCanonicalRequestBody detect_data_source
      detect_api_format
    simp [ht, hpy, hmem, hbt, hmsgs, hmodel, hempty]
  · intro raw ht hpy hmem hbt hmsgs hmodel hne hmodelempty
    unfold parse_llm_raw_data parseCanonicalRequestBody detect_data_source
      detect_api_format
    simp [ht, hpy, hmem, hbt, hmsgs, hmodel, hne, hmodelempty]
  · intro body msgs m hbody hmem hinv
    unfold validate_openai_format
    rw [hbody]
    have hne : msgs.isEmpty = false := by
      cases msgs with
      | nil => cases hmem
      | cons a l => rfl
    simp only [hne, Bool.false_eq_true, if_false]
    cases hmodelv : body.dget "model" .null with
    | str model =>
      by_cases hm : model = ""
      · simp [hm]
      · simp only [hm, if_false]
        rw [List.all_eq_false]
        refine ⟨m, hmem, ?_⟩
        unfold openaiMessageStructurallyInvalid at hinv
        cases m with
        | obj kvs =>
          simp only [Bool.not_eq_true]
          simp only [Bool.or_eq_true, Bool.not_eq_true'] at hinv
          rcases hinv with (h | h) | h
          · simp [h]
          · simp [h]
          · cases hrole : (Json.obj kvs).dget "role" .null with
            | str r =>
              rw [hrole] at h
              simp only [Bool.not_eq_true'] at h
              simp [hrole, h]
            | null => simp [hrole]
            | bool b => simp [hrole]
            | num q => simp [hrole]
            | arr xs => simp [hrole]
            | obj o => simp [hrole]
        | null => simp
        | bool b => simp
        | num q => simp
        | str s => simp
        | arr xs => simp
    | null => rfl
    | bool b => rfl
    | num q => rfl
    | arr xs => rfl
    | obj o => rfl

/-- C4 witness: parse raises on an empty message list, and the validator
rejects a body whose message lacks a content key, at concrete inputs. -/
theorem claim_C4_amended_partial_validation_witness :
    parse_llm_raw_data (Json.obj [("attributes", .obj [("http.request.body.text",
        .obj [("messages", .arr []), ("model", .str "m")])])]) =
      .error "Invalid raw data format: No messages found in request body" ∧
    validate_openai_format (.obj [("messages",
        .arr [Json.obj [("role", .str "user")]]), ("model", .str "m")]) = false :=
  ⟨claim_C4_amended_partial_validation.1 _ (by decide) (by decide) (by decide)
      (by decide) (by decide) (by decide) (by decide),
   claim_C4_amended_partial_validation.2.2 _ [Json.obj [("role", .str "user")]]
      (Json.obj [("role", .str "user")]) (by decide) (by decide) (by decide)⟩

theorem lookupField_append (a b : List (String × Json)) (k : String) :
    lookupField (a ++ b) k =
      match lookupField a k with
      | some v => some v
      | none => lookupField b k := by
  induction a with
  | nil => simp [lookupField]
  | cons e rest ih =>
    by_cases h : e.1 = k
    · simp [lookupField, h]
    · simp [lookupField, h, ih]

theorem collectSettings_lookup_notmem (body : Json) (ks : List String) (k : String)
    (hk : k ∉ ks) : lookupField (collectSettings body ks) k = none := by
  induction ks with
  | nil => simp [collectSettings, lookupField]
  | cons k' rest ih =>
    have hne : k' ≠ k := fun he => hk (he ▸ List.mem_cons_self k' rest)
    have hnotrest : k ∉ rest := fun hr => hk (List.mem_cons_of_mem _ hr)
    by_cases hmem : body.dmem k'
    · simp [collectSettings, hmem, lookupField, hne, ih hnotrest]
    · simp [collectSettings, hmem, ih hnotrest]

theorem collectSettings_lookup_mem (body : Json) (ks : List String) (k : String)
    (hk : k ∈ ks) (hnd : ks.Nodup) :
    lookupField (collectSettings body ks) k =
      if body.dmem k then some (body.dget k .null) else none := by
  induction ks with
  | nil => cases hk
  | cons k' rest ih =>
    rcases List.mem_cons.mp hk with he | hr
    · subst he
      have hnot : k ∉ rest := (List.nodup_cons.mp hnd).1
      by_cases hmem : body.dmem k
      · simp [collectSettings, hmem, lookupField]
      · simp [collectSettings, hmem, collectSettings_lookup_notmem body rest k hnot]
    · have hne : k' ≠ k := fun he => ((List.nodup_cons.mp hnd).1 (he ▸ hr)).elim
      have ih' := ih hr (List.nodup_cons.mp hnd).2
      by_cases hmem : body.dmem k'
      · simp [collectSettings, hmem, lookupField, hne, ih']
      · simp [collectSettings, hmem, ih']

theorem collectSettings_eq_nil (body : Json) (ks : List String) :
    collectSettings body ks = [] ↔ ∀ k ∈ ks, body.dmem k = false := by
  induction ks with
  | nil => simp [collectSettings]
  | cons k' rest ih =>
    by_cases hmem : body.dmem k'
    · simp [collectSettings, hmem]
    · simp [collectSettings, hmem, ih]

theorem parseCanonicalRequestBody_openai (raw : Json)
    (ht : (raw.dget "attributes" (.obj [])).truthy)
    (hpy : ¬(raw.dget "attributes" (.obj [])).dmem "gen_ai.input.messages")
    (hmem : (raw.dget "attributes" (.obj [])).dmem "http.request.body.text")
    (hbt : ((raw.dget "attributes" (.obj [])).dget "http.request.body.text"
      (.obj [])).truthy)
    (hmsgs : ((raw.dget "attributes" (.obj [])).dget "http.request.body.text"
      (.obj [])).dmem "messages")
    (hmodel : ((raw.dget "attributes" (.obj [])).dget "http.request.body.text"
      (.obj [])).dmem "model") :
    parseCanonicalRequestBody raw =
      .ok ((raw.dget "attributes" (.obj [])).dget "http.request.body.text"
        (.obj [])) := by
  unfold parseCanonicalRequestBody detect_data_source detect_api_format
  simp [ht, hpy, hmem, hbt, hmsgs, hmodel]

theorem mkParsedLLMData_ok_settings (middle : List Json) (tools modelName : Json)
    (settings : Option (List (String × Json))) (sp lu : Json) (p : ParsedLLMData)
    (h : mkParsedLLMData middle tools modelName settings sp lu = .ok p) :
    p.model_settings = settings := by
  unfold mkParsedLLMData at h
  repeat' split at h
  all_goals first
  | (cases h; rfl)
  | cases h

theorem parse_ok_model_settings (raw body : Json) (p : ParsedLLMData)
    (hbody : parseCanonicalRequestBody raw = .ok body)
    (hp : parse_llm_raw_data raw = .ok p) :
    p.model_settings = extract_model_settings body := by
  unfold parse_llm_raw_data at hp
  rw [hbody] at hp
  dsimp only at hp
  by_cases h1 : (body.dget "messages" (.arr [])).truthy
  case neg => rw [if_pos (by simp [h1])] at hp; cases hp
  rw [if_neg (by simp [h1])] at hp
  by_cases h2 : (body.dget "model" (.str "")).truthy
  case neg => rw [if_pos (by simp [h2])] at hp; cases hp
  rw [if_neg (by simp [h2])] at hp
  cases hm : body.dget "messages" (.arr []) with
  | arr allMessages =>
    simp only [hm] at hp
    cases hs : findSystemPromptAux allMessages 0 with
    | error e => simp only [hs] at hp; cases hp
    | ok sys =>
      simp only [hs] at hp
      cases hl : findLastUserAux allMessages.reverse
          ((allMessages.length : Int) - 1) with
      | error e => simp only [hl] at hp; cases hp
      | ok lastu =>
        simp only [hl] at hp
        cases hmk : mkParsedLLMData (buildMiddleAux allMessages 0 sys.2 lastu.2)
            (body.dget "tools" (.arr [])) (body.dget "model" (.str ""))
            (extract_model_settings body) sys.1 lastu.1 with
        | error e => simp only [hmk] at hp; cases hp
        | ok q =>
          simp only [hmk] at hp
          cases hp
          exact mkParsedLLMData_ok_settings _ _ _ _ _ _ _ hmk
  | null => simp only [hm] at hp; cases hp
  | bool b => simp only [hm] at hp; cases hp
  | num q => simp only [hm] at hp; cases hp
  | str s => simp only [hm] at hp; cases hp
  | obj o => simp only [hm] at hp; cases hp

theorem maxTokensPart_lookup_ne (body : Json) (k : String) (h : k ≠ "max_tokens") :
    lookupField (maxTokensPart body) k = none := by
  unfold maxTokensPart
  by_cases h1 : body.dmem "max_completion_tokens"
  · simp [h1, lookupField, Ne.symm h]
  · by_cases h2 : body.dmem "max_tokens"
    · simp [h1, h2, lookupField, Ne.symm h]
    · simp [h1, h2, lookupField]

theorem maxTokensPart_lookup (body : Json) :
    lookupField (maxTokensPart body) "max_tokens" =
      if body.dmem "max_completion_tokens" then
        some (body.dget "max_completion_tokens" .null)
      else if body.dmem "max_tokens" then some (body.dget "max_tokens" .null)
      else none := by
  unfold maxTokensPart
  by_cases h1 : body.dmem "max_completion_tokens"
  · simp [h1, lookupField]
  · by_cases h2 : body.dmem "max_tokens"
    · simp [h1, h2, lookupField]
    · simp [h1, h2, lookupField]

theorem maxTokensPart_eq_nil (body : Json) :
    maxTokensPart body = [] ↔
      body.dmem "max_completion_tokens" = false ∧ body.dmem "max_tokens" = false := by
  unfold maxTokensPart
  by_cases h1 : body.dmem "max_completion_tokens"
  · simp [h1]
  · by_cases h2 : body.dmem "max_tokens"
    · simp [h1, h2]
    · simp [h1, h2]

theorem extract_settings_empty_facts (body : Json)
    (h : (collectSettings body settingsWhitelist ++ maxTokensPart body).isEmpty) :
    collectSettings body settingsWhitelist = [] ∧ maxTokensPart body = [] := by
  rw [List.isEmpty_iff, List.append_eq_nil] at h
  exact h

theorem extract_lookup_whitelist (body : Json) (k : String)
    (hk : k ∈ settingsWhitelist) (hne : k ≠ "max_tokens") :
    settingsLookup (extract_model_settings body) k =
      if body.dmem k then some (body.dget k .null) else none := by
  unfold extract_model_settings
  by_cases hemp : (collectSettings body settingsWhitelist ++ maxTokensPart body).isEmpty
  · rcases extract_settings_empty_facts body hemp with ⟨hc, _⟩
    have hdm : body.dmem k = false := (collectSettings_eq_nil body _).mp hc k hk
    simp [hemp, settingsLookup, hdm]
  · simp only [hemp, Bool.false_eq_true, if_false, settingsLookup]
    rw [lookupField_append,
      collectSettings_lookup_mem body _ k hk (by decide)]
    by_cases hdm : body.dmem k
    · simp [hdm]
    · simp [hdm, maxTokensPart_lookup_ne body k hne]

theorem extract_lookup_max_tokens (body : Json) :
    settingsLookup (extract_model_settings body) "max_tokens" =
      if body.dmem "max_completion_tokens" then
        some (body.dget "max_completion_tokens" .null)
      else if body.dmem "max_tokens" then some (body.dget "max_tokens" .null)
      else none := by
  unfold extract_model_settings
  by_cases hemp : (collectSettings body settingsWhitelist ++ maxTokensPart body).isEmpty
  · rcases extract_settings_empty_facts body hemp with ⟨_, hm⟩
    rcases (maxTokensPart_eq_nil body).mp hm with ⟨h1, h2⟩
    simp [hemp, settingsLookup, h1, h2]
  · simp only [hemp, Bool.false_eq_true, if_false, settingsLookup]
    rw [lookupField_append,
      collectSettings_lookup_notmem body _ "max_tokens" (by decide)]
    exact maxTokensPart_lookup body

theorem extract_lookup_other (body : Json) (k : String)
    (hk : k ∉ settingsWhitelist) (hne : k ≠ "max_tokens") :
    settingsLookup (extract_model_settings body) k = none := by
  unfold extract_model_settings
  by_cases hemp : (collectSettings body settingsWhitelist ++ maxTokensPart body).isEmpty
  · simp [hemp, settingsLookup]
  · simp only [hemp, Bool.false_eq_true, if_false, settingsLookup]
    rw [lookupField_append, collectSettings_lookup_notmem body _ k hk]
    exact maxTokensPart_lookup_ne body k hne

theorem extract_none_iff (body : Json) :
    extract_model_settings body = none ↔
      ∀ k ∈ settingsWhitelist ++ ["max_completion_tokens", "max_tokens"],
        body.dmem k = false := by
  unfold extract_model_settings
  by_cases hemp : (collectSettings body settingsWhitelist ++ maxTokensPart body).isEmpty
  · rcases extract_settings_empty_facts body hemp with ⟨hc, hm⟩
    rcases (maxTokensPart_eq_nil body).mp hm with ⟨h1, h2⟩
    simp only [hemp, if_true]
    constructor
    · intro _ k hk
      rcases List.mem_append.mp hk with hw | hx
      · exact (collectSettings_eq_nil body _).mp hc k hw
      · have hx2 : k = "max_completion_tokens" ∨ k = "max_tokens" := by
          simpa using hx
        rcases hx2 with h | h
        · exact h ▸ h1
        · exact h ▸ h2
    · intro _; trivial
  · simp only [hemp, Bool.false_eq_true, if_false]
    constructor
    · intro h; cases h
    · intro hall
      exfalso
      apply hemp
      rw [List.isEmpty_iff, List.append_eq_nil]
      refine ⟨(collectSettings_eq_nil body _).mpr ?_, (maxTokensPart_eq_nil body).mpr ?_⟩
      · intro k hk
        exact hall k (List.mem_append.mpr (Or.inl hk))
      · exact ⟨hall "max_completion_tokens" (by simp [settingsWhitelist]),
          hall "max_tokens" (by simp [settingsWhitelist])⟩

/-- C6: the extracted model_settings holds exactly the whitelisted keys
present in the body with their values, the max_tokens entry follows the
max_completion_tokens over max_tokens aliasing under the canonical key, no
other key ever appears, an input with no relevant key yields None rather
than an empty mapping, the settings parse_llm_raw_data returns for an
OpenAI-shape capture are exactly this extraction of its request body, and
the body with temperature 0.2 and max_completion_tokens 1000 yields exactly
the stated two-entry mapping. -/
theorem claim_C6_settings_extraction :
    (∀ body : Json, ∀ k ∈ settingsWhitelist,
      settingsLookup (extract_model_settings body) k =
        if body.dmem k then some (body.dget k .null) else none) ∧
    (∀ body : Json,
      settingsLookup (extract_model_settings body) "max_tokens" =
        if body.dmem "max_completion_tokens" then
          some (body.dget "max_completion_tokens" .null)
        else if body.dmem "max_tokens" then some (body.dget "max_tokens" .null)
        else none) ∧
    (∀ (body : Json) (k : String), k ∉ settingsWhitelist → k ≠ "max_tokens" →
      settingsLookup (extract_model_settings body) k = none) ∧
    (∀ body : Json, extract_model_settings body = none ↔
      ∀ k ∈ settingsWhitelist ++ ["max_completion_tokens", "max_tokens"],
        body.dmem k = false) ∧
    (∀ (raw : Json) (p : ParsedLLMData),
      (raw.dget "attributes" (.obj [])).truthy →
      ¬(raw.dget "attributes" (.obj [])).dmem "gen_ai.input.messages" →
      (raw.dget "attributes" (.obj [])).dmem "http.request.body.text" →
      ((raw.dget "attributes" (.obj [])).dget "http.request.body.text"
        (.obj [])).truthy →
      ((raw.dget "attributes" (.obj [])).dget "http.request.body.text"
        (.obj [])).dmem "messages" →
      ((raw.dget "attributes" (.obj [])).dget "http.request.body.text"
        (.obj [])).dmem "model" →
      parse_llm_raw_data raw = .ok p →
      p.model_settings = extract_model_settings
        ((raw.dget "attributes" (.obj [])).dget "http.request.body.text"
          (.obj []))) ∧
    extract_model_settings aliasSettingsBody =
      some [("temperature", Json.num 0.2), ("max_tokens", Json.num 1000)] := by
  refine ⟨?_, extract_lookup_max_tokens, extract_lookup_other, extract_none_iff,
    ?_, rfl⟩
  · intro body k hk
    have hne : k ≠ "max_tokens" := by
      have : ∀ x ∈ settingsWhitelist, x ≠ "max_tokens" := by decide
      exact this k hk
    exact extract_lookup_whitelist body k hk hne
  · intro raw p ht hpy hmem hbt hmsgs hmodel hp
    exact parse_ok_model_settings raw _ p
      (parseCanonicalRequestBody_openai raw ht hpy hmem hbt hmsgs hmodel) hp

/-- C6 witness: the whitelist lookup and the parse-level equation hold at
concrete inputs. -/
theorem claim_C6_settings_extraction_witness :
    settingsLookup (extract_model_settings aliasSettingsBody) "temperature" =
      (if aliasSettingsBody.dmem "temperature" then
        some (aliasSettingsBody.dget "temperature" .null) else none) ∧
    ∃ p, parse_llm_raw_data openaiEndToEndCapture = .ok p ∧
      p.model_settings = extract_model_settings
        ((openaiEndToEndCapture.dget "attributes" (.obj [])).dget
          "http.request.body.text" (.obj [])) :=
  ⟨claim_C6_settings_extraction.1 aliasSettingsBody "temperature" (by decide),
   ⟨_, rfl, claim_C6_settings_extraction.2.2.2.2.1 openaiEndToEndCapture _
      (by decide) (by decide) (by decide) (by decide) (by decide) (by decide)
      rfl⟩⟩

/-- C3: in the FIFO scenario with two calls to f (after a call to g) and two
responses for f, all without ids, the first response is paired with the
first synthesized call id for f and the second with the second, each pending
id is consumed exactly once from both indexes, the two tool messages carry
distinct tool_call_id values, and the pending call of g is untouched. -/
theorem claim_C3_fifo_pairing (g f aG a1 a2 : String) (p1 p2 : Json)
    (hg : g ≠ "") (hf : f ≠ "") (hgf : g ≠ f)
    (hp1 : p1 ≠ .null) (hp2 : p2 ≠ .null) :
    convertGeminiContents (fifoContents g f (.str aG) (.str a1) (.str a2) p1 p2)
        ⟨1, [], []⟩ =
      .ok ([Json.obj [("role", .str "assistant"), ("content", .str ""),
              ("tool_calls", .arr [toolCallJson "tool_call_1" g aG,
                toolCallJson "tool_call_2" f a1, toolCallJson "tool_call_3" f a2])],
            Json.obj [("role", .str "tool"),
              ("content", .str (jsonDumps (.obj [("name", .str f), ("response", p1)]))),
              ("tool_call_id", .str "tool_call_2")],
            Json.obj [("role", .str "tool"),
              ("content", .str (jsonDumps (.obj [("name", .str f), ("response", p2)]))),
              ("tool_call_id", .str "tool_call_3")]],
        ⟨4, [("tool_call_1", some (.str g))], [(.str g, ["tool_call_1"])]⟩) := by
  simp [fifoContents, geminiCallPart, geminiResponsePart, convertGeminiContents,
    convert_gemini_parts_to_openai_message, convertGeminiParts, convertGeminiPart,
    toolCallJson, Json.dget, Json.dmem, Json.truthy, Json.asList, lookupField,
    setPending, lookupPending, removePending, appendByName, lookupByName,
    setByName, removeByName, removeFirst, joinStrings, asStringList,
    hg, hf, hgf, hp1, hp2, Ne.symm hgf]
  have e1 : "tool_call_" ++ toString (1 : Int) = "tool_call_1" := by decide
  have e2 : "tool_call_" ++ toString (2 : Int) = "tool_call_2" := by decide
  have e3 : "tool_call_" ++ toString (3 : Int) = "tool_call_3" := by decide
  simp [e1, e2, e3]

/-- C3 witness: the FIFO pairing at concrete names, arguments and payloads. -/
theorem claim_C3_fifo_pairing_witness :
    ("g" ≠ "" ∧ "f" ≠ "" ∧ "g" ≠ "f" ∧
      Json.num 10 ≠ Json.null ∧ Json.num 20 ≠ Json.null) ∧
    convertGeminiContents
        (fifoContents "g" "f" (.str "") (.str "1") (.str "2") (.num 10) (.num 20))
        ⟨1, [], []⟩ =
      .ok ([Json.obj [("role", .str "assistant"), ("content", .str ""),
              ("tool_calls", .arr [toolCallJson "tool_call_1" "g" "",
                toolCallJson "tool_call_2" "f" "1", toolCallJson "tool_call_3" "f" "2"])],
            Json.obj [("role", .str "tool"),
              ("content", .str (jsonDumps (.obj [("name", .str "f"),
                ("response", .num 10)]))),
              ("tool_call_id", .str "tool_call_2")],
            Json.obj [("role", .str "tool"),
              ("content", .str (jsonDumps (.obj [("name", .str "f"),
                ("response", .num 20)]))),
              ("tool_call_id", .str "tool_call_3")]],
        ⟨4, [("tool_call_1", some (.str "g"))], [(.str "g", ["tool_call_1"])]⟩) :=
  ⟨⟨by decide, by decide, by decide, by decide, by decide⟩,
   claim_C3_fifo_pairing "g" "f" "" "1" "2" (.num 10) (.num 20)
     (by decide) (by decide) (by decide) (by decide) (by decide)⟩

theorem mkParsedLLMData_ok_fields (middle : List Json) (tools modelName : Json)
    (settings : Option (List (String × Json))) (spJ luJ : Json) (p : ParsedLLMData)
    (h : mkParsedLLMData middle tools modelName settings spJ luJ = .ok p) :
    p.middle_messages = middle ∧ Json.str p.system_prompt = spJ ∧
      Json.str p.last_user_message = luJ := by
  unfold mkParsedLLMData at h
  repeat' split at h
  all_goals first
  | (cases h; exact ⟨rfl, rfl, rfl⟩)
  | cases h

theorem parse_ok_decompose (raw body : Json) (msgs : List Json) (p : ParsedLLMData)
    (hbody : parseCanonicalRequestBody raw = .ok body)
    (hmsgs : body.dget "messages" (.arr []) = .arr msgs)
    (hp : parse_llm_raw_data raw = .ok p) :
    ∃ sys lastu : Json × Int,
      findSystemPromptAux msgs 0 = .ok sys ∧
      findLastUserAux msgs.reverse ((msgs.length : Int) - 1) = .ok lastu ∧
      p.middle_messages = buildMiddleAux msgs 0 sys.2 lastu.2 ∧
      Json.str p.system_prompt = sys.1 ∧
      Json.str p.last_user_message = lastu.1 := by
  unfold parse_llm_raw_data at hp
  rw [hbody] at hp
  dsimp only at hp
  by_cases h1 : (body.dget "messages" (.arr [])).truthy
  case neg => rw [if_pos (by simp [h1])] at hp; cases hp
  rw [if_neg (by simp [h1])] at hp
  by_cases h2 : (body.dget "model" (.str "")).truthy
  case neg => rw [if_pos (by simp [h2])] at hp; cases hp
  rw [if_neg (by simp [h2])] at hp
  simp only [hmsgs] at hp
  cases hs : findSystemPromptAux msgs 0 with
  | error e => simp only [hs] at hp; cases hp
  | ok sys =>
    simp only [hs] at hp
    cases hl : findLastUserAux msgs.reverse ((msgs.length : Int) - 1) with
    | error e => simp only [hl] at hp; cases hp
    | ok lastu =>
      simp only [hl] at hp
      cases hmk : mkParsedLLMData (buildMiddleAux msgs 0 sys.2 lastu.2)
          (body.dget "tools" (.arr [])) (body.dget "model" (.str ""))
          (extract_model_settings body) sys.1 lastu.1 with
      | error e => simp only [hmk] at hp; cases hp
      | ok q =>
        simp only [hmk] at hp
        cases hp
        obtain ⟨hm, hsp, hlu⟩ := mkParsedLLMData_ok_fields _ _ _ _ _ _ _ hmk
        exact ⟨sys, lastu, rfl, rfl, hm, hsp, hlu⟩

theorem findSystemPromptAux_none (l : List Json) (i : Int) (r : Json × Int)
    (hok : findSystemPromptAux l i = .ok r)
    (h : ∀ m ∈ l, m.dget "role" .null ≠ .str "system") : r = (.str "", -1) := by
  induction l generalizing i with
  | nil =>
    simp [findSystemPromptAux] at hok
    exact hok.symm
  | cons m rest ih =>
    cases m with
    | obj kvs =>
      have hrole := h (Json.obj kvs) (List.mem_cons_self _ _)
      simp only [findSystemPromptAux, pyGet] at hok
      rw [if_neg (by simpa [Json.dget] using hrole)] at hok
      exact ih (i + 1) hok fun m hm => h m (List.mem_cons_of_mem _ hm)
    | null => simp [findSystemPromptAux, pyGet] at hok
    | bool b => simp [findSystemPromptAux, pyGet] at hok
    | num q => simp [findSystemPromptAux, pyGet] at hok
    | str s => simp [findSystemPromptAux, pyGet] at hok
    | arr xs => simp [findSystemPromptAux, pyGet] at hok

theorem findSystemPromptAux_system_head (c : String) (rest : List Json) (i : Int) :
    findSystemPromptAux (mkRoleContentMsg "system" c :: rest) i = .ok (.str c, i) := by
  simp [findSystemPromptAux, pyGet, mkRoleContentMsg, lookupField]

theorem findLastUserAux_user_head (c : String) (l : List Json) (i : Int) :
    findLastUserAux (mkRoleContentMsg "user" c :: l) i = .ok (.str c, i) := by
  simp [findLastUserAux, pyGet, mkRoleContentMsg, lookupField]

theorem buildMiddleAux_keep (init : List Json) (x : Json) (k si : Int)
    (hsi : si < k) : buildMiddleAux (init ++ [x]) k si (k + init.length) = init := by
  induction init generalizing k with
  | nil =>
    simp [buildMiddleAux]
  | cons m init' ih =>
    simp only [List.cons_append, buildMiddleAux]
    have h1 : k ≠ si := Ne.symm (ne_of_lt hsi)
    have h2 : k ≠ k + ((m :: init').length : Int) := by
      simp [List.length_cons]
      omega
    rw [if_pos ⟨h1, h2⟩]
    have harith : k + ((m :: init').length : Int) = (k + 1) + (init'.length : Int) := by
      simp [List.length_cons]
      omega
    rw [harith]
    simp only [List.append_eq]
    rw [ih (k + 1) (by omega)]
    simp

/-- C1 amended: the replay concatenation reproduces the canonical message
list exactly when the extracted turns sit where re-emission puts them back:
the first system message, if any, is the initial message and is exactly a
role/content dict with non-empty string content, and the final message is
exactly a role user content dict with non-empty string content (so the last
non-assistant turn is final and not a tool turn). -/
theorem claim_C1_amended_round_trip (raw body : Json) (msgs : List Json)
    (p : ParsedLLMData)
    (hbody : parseCanonicalRequestBody raw = .ok body)
    (hmsgs : body.dget "messages" (.arr []) = .arr msgs)
    (hp : parse_llm_raw_data raw = .ok p)
    (hsys : (∀ m ∈ msgs, m.dget "role" .null ≠ .str "system") ∨
      ∃ c rest, msgs = mkRoleContentMsg "system" c :: rest ∧ c ≠ "")
    (hlast : ∃ c' init, msgs = init ++ [mkRoleContentMsg "user" c'] ∧ c' ≠ "") :
    build_replay_messages p.system_prompt p.middle_messages p.last_user_message =
      msgs := by
  obtain ⟨sys, lastu, hs, hl, hmid, hsp, hlu⟩ :=
    parse_ok_decompose raw body msgs p hbody hmsgs hp
  obtain ⟨c', init, hmeq, hc'⟩ := hlast
  subst hmeq
  simp only [List.reverse_append, List.reverse_cons, List.reverse_nil,
    List.nil_append, List.cons_append] at hl
  rw [findLastUserAux_user_head] at hl
  cases hl
  have hlen : ((init ++ [mkRoleContentMsg "user" c']).length : Int) - 1 =
      (init.length : Int) := by
    simp [List.length_append]
  have hluv : p.last_user_message = c' := by
    exact (Json.str.injEq _ _).mp hlu
  rcases hsys with hA | ⟨c, rest, hBeq, hc⟩
  · have hsysr := findSystemPromptAux_none _ _ _ hs hA
    cases hsysr
    have hspv : p.system_prompt = "" := by
      exact (Json.str.injEq _ _).mp hsp
    rw [hmid]
    simp only [hlen]
    have hmidv : buildMiddleAux (init ++ [mkRoleContentMsg "user" c']) 0 (-1)
        (0 + (init.length : Int)) = init :=
      buildMiddleAux_keep init _ 0 (-1) (by omega)
    rw [show ((init.length : Int)) = 0 + (init.length : Int) by omega, hmidv]
    simp [build_replay_messages, hspv, hluv, hc', mkRoleContentMsg]
  · cases init with
    | nil =>
      exfalso
      simp only [List.nil_append] at hBeq
      have : mkRoleContentMsg "user" c' = mkRoleContentMsg "system" c := by
        exact (List.cons.injEq _ _ _ _).mp hBeq |>.1
      simp [mkRoleContentMsg] at this
    | cons m0 init' =>
      simp only [List.cons_append] at hBeq
      have hm0 : m0 = mkRoleContentMsg "system" c :=
        ((List.cons.injEq _ _ _ _).mp hBeq).1
      subst hm0
      rw [show (mkRoleContentMsg "system" c :: init') ++ [mkRoleContentMsg "user" c'] =
        mkRoleContentMsg "system" c :: (init' ++ [mkRoleContentMsg "user" c'])
        from rfl] at hs
      rw [findSystemPromptAux_system_head] at hs
      cases hs
      have hspv : p.system_prompt = c := by
        exact (Json.str.injEq _ _).mp hsp
      rw [hmid]
      simp only [hlen]
      have hlen2 : ((mkRoleContentMsg "system" c :: init').length : Int) =
          1 + (init'.length : Int) := by
        simp [List.length_cons]
        omega
      rw [hlen2]
      have hstep : buildMiddleAux ((mkRoleContentMsg "system" c :: init') ++
          [mkRoleContentMsg "user" c']) 0 0 (1 + (init'.length : Int)) =
          buildMiddleAux (init' ++ [mkRoleContentMsg "user" c']) 1 0
            (1 + (init'.length : Int)) := by
        simp only [List.cons_append, buildMiddleAux]
        rw [if_neg (by simp)]
        simp [List.append_eq]
      rw [hstep, buildMiddleAux_keep init' _ 1 0 (by omega)]
      simp [build_replay_messages, hspv, hluv, hc, hc', mkRoleContentMsg]

/-- C1 counterexample: for the capture whose canonical list is user a then
assistant b, parse succeeds with last_user_message a and middle message
assistant b, but the replay concatenation emits assistant b before the
re-appended user a: the messages are reordered, so the round trip does not
reproduce the canonical list. -/
theorem claim_C1_counterexample :
    parse_llm_raw_data reorderingCapture = .ok
      { middle_messages := [mkRoleContentMsg "assistant" "b"], tools := none,
        model_name := "m", model_settings := none, system_prompt := "",
        last_user_message := "a" } ∧
    build_replay_messages "" [mkRoleContentMsg "assistant" "b"] "a" ≠
      [mkRoleContentMsg "user" "a", mkRoleContentMsg "assistant" "b"] :=
  ⟨rfl, by decide⟩

/-- C1 witness: the amended round trip at a concrete two-message capture. -/
theorem claim_C1_amended_round_trip_witness :
    ∃ p, parse_llm_raw_data (Json.obj [("attributes", .obj
        [("http.request.body.text", .obj [
          ("messages", .arr [mkRoleContentMsg "system" "s",
            mkRoleContentMsg "user" "u"]),
          ("model", .str "m")])])]) = .ok p ∧
      build_replay_messages p.system_prompt p.middle_messages
          p.last_user_message =
        [mkRoleContentMsg "system" "s", mkRoleContentMsg "user" "u"] :=
  ⟨{ middle_messages := [], tools := none, model_name := "m",
      model_settings := none, system_prompt := "s", last_user_message := "u" },
    rfl,
    claim_C1_amended_round_trip
      (Json.obj [("attributes", .obj [("http.request.body.text", .obj [
        ("messages", .arr [mkRoleContentMsg "system" "s",
          mkRoleContentMsg "user" "u"]),
        ("model", .str "m")])])])
      (Json.obj [("messages", .arr [mkRoleContentMsg "system" "s",
        mkRoleContentMsg "user" "u"]), ("model", .str "m")])
      [mkRoleContentMsg "system" "s", mkRoleContentMsg "user" "u"]
      { middle_messages := [], tools := none, model_name := "m",
        model_settings := none, system_prompt := "s", last_user_message := "u" }
      rfl rfl rfl
      (Or.inr ⟨"s", [mkRoleContentMsg "user" "u"], rfl, by decide⟩)
      ⟨"u", [mkRoleContentMsg "system" "s"], rfl, by decide⟩⟩

theorem lookup_setField (kvs : List (String × Json)) (k : String) (v : Json) :
    lookupField (setField kvs k v) k = some v := by
  induction kvs with
  | nil => simp [setField, lookupField]
  | cons e rest ih =>
    by_cases h : e.1 = k
    · simp [setField, h, lookupField]
    · simp [setField, h, lookupField, ih]

theorem findLastUserAux_ok_of_objs (l : List Json) (i : Int)
    (h : ∀ m ∈ l, (∃ kvs, m = Json.obj kvs) ∧ ∃ s, m.dget "content" (.str "") = .str s) :
    ∃ lu : Json × Int, findLastUserAux l i = .ok lu ∧ ∃ s, lu.1 = .str s := by
  induction l generalizing i with
  | nil => exact ⟨(.str "", -1), rfl, "", rfl⟩
  | cons m rest ih =>
    obtain ⟨⟨kvs, hm⟩, ⟨s, hc⟩⟩ := h m (List.mem_cons_self _ _)
    subst hm
    simp only [findLastUserAux, pyGet]
    by_cases hrole : ((lookupField kvs "role").getD Json.null) = .str "assistant"
    · simp only [hrole, ne_eq, not_true_eq_false, if_false]
      exact ih (i - 1) fun m hm => h m (List.mem_cons_of_mem _ hm)
    · simp only [if_pos hrole]
      by_cases htool : ((lookupField kvs "role").getD Json.null) = .str "tool"
      · rw [if_pos htool]
        exact ⟨_, rfl, _, rfl⟩
      · rw [if_neg htool]
        refine ⟨((lookupField kvs "content").getD (Json.str ""), i), rfl, s, ?_⟩
        simpa [Json.dget] using hc

theorem buildMiddleAux_subset (l : List Json) (k si li : Int) (m : Json)
    (h : m ∈ buildMiddleAux l k si li) : m ∈ l := by
  induction l generalizing k with
  | nil => simp [buildMiddleAux] at h
  | cons a rest ih =>
    simp only [buildMiddleAux] at h
    rcases List.mem_append.mp h with h1 | h2
    · by_cases hc : k ≠ si ∧ k ≠ li
      · rw [if_pos hc] at h1
        simp only [List.mem_singleton] at h1
        exact h1 ▸ List.mem_cons_self _ _
      · rw [if_neg hc] at h1
        cases h1
    · exact List.mem_cons_of_mem _ (ih (k + 1) h2)

theorem buildMiddleAux_mem (l : List Json) (k si li : Int) (j : Nat)
    (hj : j < l.length) (h1 : k + (j : Int) ≠ si) (h2 : k + (j : Int) ≠ li) :
    l.get ⟨j, hj⟩ ∈ buildMiddleAux l k si li := by
  induction l generalizing k j with
  | nil => cases hj
  | cons a rest ih =>
    cases j with
    | zero =>
      simp only [List.get] at h1 h2 ⊢
      simp only [buildMiddleAux]
      apply List.mem_append.mpr
      left
      rw [if_pos ⟨by simpa using h1, by simpa using h2⟩]
      exact List.mem_singleton.mpr rfl
    | succ j' =>
      have hj' : j' < rest.length := by simpa [List.length_cons] using hj
      simp only [buildMiddleAux]
      apply List.mem_append.mpr
      right
      have e1 : (k + 1) + (j' : Int) = k + ((j' + 1 : Nat) : Int) := by
        push_cast
        ring
      have := ih (k + 1) j' hj' (by rw [e1]; exact h1) (by rw [e1]; exact h2)
      simpa using this

theorem mkParsedLLMData_ok_of (middle : List Json) (tools : Json)
    (mn sp lu : String) (settings : Option (List (String × Json)))
    (hmid : ∀ m ∈ middle, ∃ kvs, m = Json.obj kvs)
    (htools : ¬tools.truthy ∨
      ∃ tl, tools = .arr tl ∧ ∀ t ∈ tl, ∃ kvs, t = Json.obj kvs) :
    ∃ p, mkParsedLLMData middle tools (.str mn) settings (.str sp) (.str lu) =
        .ok p ∧
      p.middle_messages = middle ∧ p.system_prompt = sp ∧
      p.last_user_message = lu := by
  unfold mkParsedLLMData
  dsimp only
  have hall : middle.all (fun m => match m with | Json.obj _ => true | _ => false) := by
    rw [List.all_eq_true]
    intro m hm
    obtain ⟨kvs, hk⟩ := hmid m hm
    simp [hk]
  rw [if_pos hall]
  rcases htools with hnt | ⟨tl, htl, hobj⟩
  · rw [if_neg (by simpa using hnt)]
    exact ⟨_, rfl, rfl, rfl, rfl⟩
  · subst htl
    by_cases ht : (Json.arr tl).truthy
    · rw [if_pos ht]
      dsimp only
      have hallt : tl.all (fun t => match t with | Json.obj _ => true | _ => false) := by
        rw [List.all_eq_true]
        intro t hti
        obtain ⟨kvs, hk⟩ := hobj t hti
        simp [hk]
      rw [if_pos hallt]
      exact ⟨_, rfl, rfl, rfl, rfl⟩
    · rw [if_neg ht]
      exact ⟨_, rfl, rfl, rfl, rfl⟩

theorem pydantic_canonical_body (rkvs : List (String × Json))
    (attrs : List (String × Json))
    (hattr : lookupField rkvs "attributes" = some (Json.obj attrs))
    (hmem : (Json.obj attrs).dmem "gen_ai.input.messages") :
    parseCanonicalRequestBody (Json.obj rkvs) =
      .ok (((convert_pydantic_ai_to_openai_format (Json.obj rkvs)).dget
        "attributes" (.obj [])).dget "http.request.body.text" (.obj [])) := by
  have hattrs_ne : attrs ≠ [] := by
    intro he
    rw [he] at hmem
    simp [Json.dmem, lookupField] at hmem
  unfold parseCanonicalRequestBody detect_data_source
  simp [Json.dget, hattr, Json.truthy, hattrs_ne, hmem]

theorem pydantic_conv_body_facts (rkvs attrs : List (String × Json))
    (msgs instrs : List Json) (mn : String) (b : Json)
    (hattr : lookupField rkvs "attributes" = some (Json.obj attrs))
    (hmsgsl : lookupField attrs "gen_ai.input.messages" = some (.arr msgs))
    (hinstr : lookupField attrs "gen_ai.system_instructions" = some (.arr instrs))
    (hsysne : extractSystemContentParts instrs ≠ [])
    (hmodel : lookupField attrs "gen_ai.request.model" = some (.str mn))
    (hb : b = ((convert_pydantic_ai_to_openai_format (Json.obj rkvs)).dget
        "attributes" (.obj [])).dget "http.request.body.text" (.obj [])) :
    b.dget "messages" (.arr []) =
      .arr (mkRoleContentMsg "system"
          (String.intercalate "\n" (extractSystemContentParts instrs)) ::
        msgs.map convertPydanticInputMessage) ∧
    b.dget "model" (.str "") = .str mn ∧
    (∃ tl, b.dget "tools" (.arr []) = .arr tl) ∧
    (∀ tl, b.dget "tools" (.arr []) = .arr tl →
      ∀ t ∈ tl, ∃ kvs, t = Json.obj kvs) := by
  subst hb
  have hinstrne : instrs ≠ [] := by
    intro he
    apply hsysne
    rw [he]
    rfl
  have hie : instrs.isEmpty = false := by
    simp [List.isEmpty_iff, hinstrne]
  have hse : (extractSystemContentParts instrs).isEmpty = false := by
    simp [List.isEmpty_iff, hsysne]
  unfold convert_pydantic_ai_to_openai_format
  simp only [Json.dget, hattr, Option.getD_some, hinstr, hmsgsl, hmodel,
    Json.truthy, Json.asList, Json.dset, lookup_setField, hie, hse,
    Bool.not_false, if_true, mkRoleContentMsg]
  refine ⟨?_, ?_, ?_, ?_⟩
  · repeat' split
    all_goals simp [lookupField]
  · repeat' split
    all_goals simp [lookupField]
  · repeat' split
    all_goals simp [lookupField]
  · intro tl heq t ht
    repeat' split at heq
    all_goals simp [lookupField] at heq
    all_goals subst heq
    all_goals
      first
      | cases ht
      | (rcases List.mem_append.mp ht with h | h <;>
          · obtain ⟨x, hx, rfl⟩ := List.mem_map.mp h
            exact ⟨_, rfl⟩)
      | (obtain ⟨x, hx, rfl⟩ := List.mem_map.mp ht
         exact ⟨_, rfl⟩)

/-- C7: for a pydantic-ai capture carrying system instructions that yield at
least one content part together with a role system entry inside the input
messages, the returned system_prompt is the newline-join of the instruction
contents, while the converted in-band entry stays an ordinary message: it is
either in middle_messages or at the excluded last-turn index. -/
theorem claim_C7_system_instruction_precedence
    (rkvs attrs : List (String × Json)) (msgs instrs : List Json) (mn : String)
    (i : Nat) (hi : i < msgs.length)
    (hattr : lookupField rkvs "attributes" = some (Json.obj attrs))
    (hmsgsl : lookupField attrs "gen_ai.input.messages" = some (.arr msgs))
    (hinstr : lookupField attrs "gen_ai.system_instructions" = some (.arr instrs))
    (hsysne : extractSystemContentParts instrs ≠ [])
    (hmodel : lookupField attrs "gen_ai.request.model" = some (.str mn))
    (hmn : mn ≠ "")
    (_hrole : (msgs.get ⟨i, hi⟩).dget "role" (.str "user") = .str "system")
    (_hwfm : msgs.all pydanticMsgWF)
    (_hwfi : instrs.all sysInstructionWF)
    (_hwft : pydanticToolParamsWF (Json.obj attrs)) :
    ∃ p, parse_llm_raw_data (Json.obj rkvs) = .ok p ∧
      p.system_prompt =
        String.intercalate "\n" (extractSystemContentParts instrs) ∧
      ∃ lastu : Json × Int,
        findLastUserAux (mkRoleContentMsg "system"
            (String.intercalate "\n" (extractSystemContentParts instrs)) ::
            msgs.map convertPydanticInputMessage).reverse
          (((mkRoleContentMsg "system"
              (String.intercalate "\n" (extractSystemContentParts instrs)) ::
            msgs.map convertPydanticInputMessage).length : Int) - 1) =
          .ok lastu ∧
        (convertPydanticInputMessage (msgs.get ⟨i, hi⟩) ∈ p.middle_messages ∨
          ((i : Int) + 1) = lastu.2) := by
  have hmem : (Json.obj attrs).dmem "gen_ai.input.messages" := by
    simp [Json.dmem, hmsgsl]
  have hbody := pydantic_canonical_body rkvs attrs hattr hmem
  obtain ⟨hF1, hF2, ⟨tl, hF3⟩, hF4⟩ :=
    pydantic_conv_body_facts rkvs attrs msgs instrs mn _ hattr hmsgsl hinstr
      hsysne hmodel rfl
  set joined := String.intercalate "\n" (extractSystemContentParts instrs)
    with hjoined
  set allM := mkRoleContentMsg "system" joined ::
    msgs.map convertPydanticInputMessage with hallM
  set B := ((convert_pydantic_ai_to_openai_format (Json.obj rkvs)).dget
    "attributes" (.obj [])).dget "http.request.body.text" (.obj []) with hB
  have hallMobjs : ∀ m ∈ allM,
      (∃ kvs, m = Json.obj kvs) ∧ ∃ s, m.dget "content" (.str "") = .str s := by
    intro m hm
    rcases List.mem_cons.mp hm with hm1 | hm2
    · subst hm1
      exact ⟨⟨_, rfl⟩, joined, by simp [mkRoleContentMsg, Json.dget, lookupField]⟩
    · obtain ⟨x, hx, rfl⟩ := List.mem_map.mp hm2
      refine ⟨⟨_, rfl⟩, convert_pydantic_ai_parts_to_content
        ((x.dget "parts" (.arr [])).asList), ?_⟩
      simp [convertPydanticInputMessage, Json.dget, lookupField]
  obtain ⟨lastu, hl, ⟨lus, hlus⟩⟩ :=
    findLastUserAux_ok_of_objs allM.reverse ((allM.length : Int) - 1)
      (fun m hm => hallMobjs m (List.mem_reverse.mp hm))
  have hmid : ∀ m ∈ buildMiddleAux allM 0 0 lastu.2, ∃ kvs, m = Json.obj kvs :=
    fun m hm => (hallMobjs m (buildMiddleAux_subset _ _ _ _ _ hm)).1
  obtain ⟨p, hmk, hpmid, hpsp, hplu⟩ :=
    mkParsedLLMData_ok_of (buildMiddleAux allM 0 0 lastu.2)
      (B.dget "tools" (.arr [])) mn joined lus (extract_model_settings B)
      hmid (Or.inr ⟨tl, hF3, hF4 tl hF3⟩)
  have hparse : parse_llm_raw_data (Json.obj rkvs) = .ok p := by
    unfold parse_llm_raw_data
    rw [hbody]
    dsimp only
    rw [hF1, hF2]
    rw [if_neg (by simp [Json.truthy])]
    rw [if_neg (by simp [Json.truthy, hmn])]
    try dsimp only
    rw [hallM]
    rw [findSystemPromptAux_system_head]
    try dsimp only
    rw [← hallM, hl]
    try dsimp only
    rw [hlus]
    try dsimp only
    rw [hmk]
  refine ⟨p, hparse, hpsp, lastu, hl, ?_⟩
  by_cases hEq : ((i : Int) + 1) = lastu.2
  · exact Or.inr hEq
  · refine Or.inl ?_
    rw [hpmid]
    have hlen : i + 1 < allM.length := by
      simp [hallM, List.length_cons, List.length_map]
      omega
    have hmemM := buildMiddleAux_mem allM 0 0 lastu.2 (i + 1) hlen
      (by push_cast; omega)
      (by push_cast; intro hcon; exact hEq (by omega))
    have hget : allM.get ⟨i + 1, hlen⟩ =
        convertPydanticInputMessage (msgs.get ⟨i, hi⟩) := by
      simp [hallM, List.get_cons_succ, List.getElem_map]
    rw [hget] at hmemM
    exact hmemM

/-- Witness for C7 at a concrete capture: system instructions say Be brief.,
an in-band system entry sits at index 0 of the input messages. -/
theorem claim_C7_system_instruction_precedence_witness :
    ∃ p, parse_llm_raw_data (Json.obj c7rkvs) = .ok p ∧
      p.system_prompt =
        String.intercalate "\n" (extractSystemContentParts c7instrs) ∧
      ∃ lastu : Json × Int,
        findLastUserAux (mkRoleContentMsg "system"
            (String.intercalate "\n" (extractSystemContentParts c7instrs)) ::
            c7msgs.map convertPydanticInputMessage).reverse
          (((mkRoleContentMsg "system"
              (String.intercalate "\n" (extractSystemContentParts c7instrs)) ::
            c7msgs.map convertPydanticInputMessage).length : Int) - 1) =
          .ok lastu ∧
        (convertPydanticInputMessage (c7msgs.get ⟨0, by decide⟩) ∈
            p.middle_messages ∨
          ((0 : Int) + 1) = lastu.2) :=
  claim_C7_system_instruction_precedence c7rkvs c7attrs c7msgs c7instrs
    "gemini-pro" 0 (by decide) (by decide) (by decide) (by decide) (by decide)
    (by decide) (by decide) (by decide) (by decide) (by decide) (by decide)
